import Mathlib

/-!
Verification of the server-authoritative simulation core of
`src/server.js` (the tick-based variant: constants, game state, stage
functions and the main game loop).

Modelling conventions:
  * JavaScript numbers are modelled as exact rationals.
  * `Math.hypot` (the Euclidean norm) is irrational on most inputs, so every
    definition that calls it takes the norm as an explicit function parameter
    `hyp : Q -> Q -> Q`; theorems that depend on its value constrain it at the
    point of use by the hypotheses `0 <= hyp a b` and
    `(hyp a b) ^ 2 = a ^ 2 + b ^ 2`.
  * `Math.cos`/`Math.sin` of the firing angle in `handleShoot` are likewise
    passed as parameters, and the magnetic-pull direction
    `cos (atan2 dy dx) = dx / hypot dx dy` is written with the parametrised
    norm.
  * `Math.random` is modelled as a stream `rand : Nat -> Q x Q` of spawn
    coordinates together with an index `rngIdx` threaded through the state;
    each death consumes one pair.  The random identity tokens of bullets and
    pickups are omitted: they feed only the emitted events, never a state
    transition (removal is positional in this variant).
  * Event emission (`io.emit`) is output, not state; a theorem about an
    emission is phrased through the state lists that grow with it.
-/

namespace Strafe

/-- Socket identifiers are strings assigned by the transport. -/
abbrev PlayerId := String

/-- Buffered client input record (the `input` socket event payload). -/
structure Input where
  up : Bool
  down : Bool
  left : Bool
  right : Bool
  boost : Bool
  /-- `input.angle`, present only when the client sent a number. -/
  angle : Option ℚ
  /-- `input.sequence`, `none` models the `undefined` field. -/
  sequence : Option ℤ
  deriving DecidableEq, Repr

/-- Player record as built by `spawnPlayer` and mutated by the stages. -/
structure Player where
  id : PlayerId
  x : ℚ
  y : ℚ
  velocityX : ℚ
  velocityY : ℚ
  angle : ℚ
  energy : ℚ
  dollarValue : ℚ
  invulnerable : Bool
  invulnerableTicksRemaining : ℤ
  killStreak : ℕ
  bountyMultiplier : ℚ
  lastProcessedSequence : ℤ
  currentInput : Option Input
  isBoosting : Bool
  deriving DecidableEq, Repr

/-- Server bullet record (the random id string is omitted, see header). -/
structure Bullet where
  x : ℚ
  y : ℚ
  vx : ℚ
  vy : ℚ
  radius : ℚ
  damage : ℚ
  ownerId : PlayerId
  chargeLevel : ℕ
  createdAtTick : ℕ
  deriving DecidableEq, Repr

/-- Money pickup record (the random id string is omitted, see header). -/
structure Pickup where
  x : ℚ
  y : ℚ
  amount : ℚ
  radius : ℚ
  deriving DecidableEq, Repr

/-- The global `gameState` object plus the position in the random stream. -/
structure GState where
  players : List Player
  bullets : List Bullet
  moneyPickups : List Pickup
  tickCount : ℕ
  rngIdx : ℕ
  deriving DecidableEq, Repr

-- ==================== GAME CONSTANTS (GAME_CONFIG) ====================

def ARENA_WIDTH : ℚ := 1600
def ARENA_HEIGHT : ℚ := 1200
def PLAYER_RADIUS : ℚ := 20
def PLAYER_MOMENTUM : ℚ := 98 / 100
def PLAYER_MAX_VELOCITY : ℚ := 4
def PLAYER_MAX_BOOST_VELOCITY : ℚ := 6
def PLAYER_ACCELERATION : ℚ := 3 / 10
def ENERGY_MAX : ℚ := 100
def ENERGY_REGEN : ℚ := 15 / 100
def ENERGY_BOOST_DRAIN : ℚ := 3 / 10
def INVULNERABLE_TICKS : ℤ := 120
def BULLET_MAX_LIFETIME_TICKS : ℤ := 300
def VALIDATION_MAX_SPEED : ℚ := 10

/-- One of the three weapon profiles in `GAME_CONFIG.BULLET.TYPES`. -/
structure BulletType where
  speed : ℚ
  radius : ℚ
  damage : ℚ
  energyCost : ℚ
  deriving DecidableEq, Repr

def BULLET_NORMAL : BulletType := { speed := 6, radius := 8, damage := 15, energyCost := 5 }
def BULLET_CHARGED1 : BulletType := { speed := 7, radius := 12, damage := 30, energyCost := 10 }
def BULLET_CHARGED2 : BulletType := { speed := 8, radius := 16, damage := 45, energyCost := 15 }

-- ==================== UTILITY FUNCTIONS ====================

/-- Source `getDistance(x1, y1, x2, y2) = Math.hypot(x2 - x1, y2 - y1)`,
with the norm passed as `hyp`. -/
def getDistance (hyp : ℚ → ℚ → ℚ) (x1 y1 x2 y2 : ℚ) : ℚ :=
  hyp (x2 - x1) (y2 - y1)

/-- Source `normalizeVector`, with the norm passed as `hyp`. -/
def normalizeVector (hyp : ℚ → ℚ → ℚ) (x y : ℚ) : ℚ × ℚ :=
  let length := hyp x y
  if length = 0 then (0, 0) else (x / length, y / length)

/-- Keyed write into the players object: every record whose id matches is
replaced (ids are unique in the running system, so this is the object
assignment `gameState.players[pid] = v` / in-place mutation of the record). -/
def setPlayer (pid : PlayerId) (v : Player) (l : List Player) : List Player :=
  l.map fun q => if q.id = pid then v else q

/-- Keyed read `gameState.players[pid]`. -/
def findPlayer (pid : PlayerId) (l : List Player) : Option Player :=
  l.find? fun q => q.id = pid

/-- Source `spawnPlayer`; `rx`, `ry` are the two `Math.random()` draws. -/
def spawnPlayer (rx ry : ℚ) (socketId : PlayerId) : Player :=
  let padding : ℚ := 100
  { id := socketId
    x := padding + rx * (ARENA_WIDTH - padding * 2)
    y := padding + ry * (ARENA_HEIGHT - padding * 2)
    velocityX := 0
    velocityY := 0
    angle := 0
    energy := ENERGY_MAX
    dollarValue := 1
    invulnerable := true
    invulnerableTicksRemaining := INVULNERABLE_TICKS
    killStreak := 0
    bountyMultiplier := 1
    lastProcessedSequence := -1
    currentInput := none
    isBoosting := false }

-- ==================== DEATH & RESPAWN ====================

/-- The bounty step function inlined in `killPlayer` (the switch on
`killer.killStreak` after the increment). -/
def bountyForStreak (streak : ℕ) : ℚ :=
  if streak = 0 then 1
  else if streak < 3 then 3 / 2
  else if streak < 5 then 2
  else 3

/-- The killer update inside `killPlayer`: `killer.killStreak++` followed by
the bounty switch on the incremented streak. -/
def creditKill (killer : Player) : Player :=
  { killer with
    killStreak := killer.killStreak + 1
    bountyMultiplier := bountyForStreak (killer.killStreak + 1) }

/-- Source `killPlayer(deadPlayerId, killerId)`: drop the money, credit the
killer if present, overwrite the victim in place with a fresh spawn. -/
def killPlayer (rand : ℕ → ℚ × ℚ) (deadPlayerId : PlayerId) (killerId : Option PlayerId)
    (gs : GState) : GState :=
  match findPlayer deadPlayerId gs.players with
  | none => gs
  | some deadPlayer =>
    let moneyDrop : Pickup :=
      { x := deadPlayer.x, y := deadPlayer.y, amount := deadPlayer.dollarValue, radius := 15 }
    let gs1 : GState := { gs with moneyPickups := gs.moneyPickups ++ [moneyDrop] }
    let gs2 : GState :=
      match killerId with
      | none => gs1
      | some kid =>
        match findPlayer kid gs1.players with
        | none => gs1
        | some killer =>
          { gs1 with players := setPlayer kid (creditKill killer) gs1.players }
    let rxy := rand gs2.rngIdx
    let gs3 : GState := { gs2 with rngIdx := gs2.rngIdx + 1 }
    let respawn := spawnPlayer rxy.1 rxy.2 deadPlayerId
    { gs3 with players := setPlayer deadPlayerId respawn gs3.players }

-- ==================== PHYSICS & MOVEMENT ====================

/-- Source `processPlayerInput(player, input)` with `deltaTime = 1`. -/
def processPlayerInput (hyp : ℚ → ℚ → ℚ) (player : Player) (input : Input) : Player :=
  let inputX : ℚ := (if input.left then -1 else 0) + (if input.right then 1 else 0)
  let inputY : ℚ := (if input.up then -1 else 0) + (if input.down then 1 else 0)
  let dir : ℚ × ℚ :=
    if inputX ≠ 0 ∧ inputY ≠ 0 then normalizeVector hyp inputX inputY else (inputX, inputY)
  let accel := PLAYER_ACCELERATION * 1
  let player := { player with
    velocityX := player.velocityX + dir.1 * accel
    velocityY := player.velocityY + dir.2 * accel }
  let isBoosting : Bool := input.boost && decide (0 < player.energy)
  let player :=
    if isBoosting then
      { player with energy := max 0 (player.energy - ENERGY_BOOST_DRAIN * 1) }
    else player
  let player :=
    match input.angle with
    | some a => { player with angle := a }
    | none => player
  { player with isBoosting := isBoosting }

/-- The per-player input dispatch inlined in `gameLoop`: process the buffered
input only when its sequence number is defined and strictly newer than the
last processed one, then record that sequence number. -/
def inputStage (hyp : ℚ → ℚ → ℚ) (player : Player) : Player :=
  match player.currentInput with
  | none => player
  | some input =>
    match input.sequence with
    | none => player
    | some seq =>
      if player.lastProcessedSequence < seq then
        { processPlayerInput hyp player input with lastProcessedSequence := seq }
      else player

/-- The pure part of `updatePlayerPhysics`: momentum decay
(`Math.pow(MOMENTUM, 1) = MOMENTUM`), the boost-dependent velocity cap, the
anti-speed-hack clamp (both tested against the speed read before the cap),
and position integration. -/
def integratePlayer (hyp : ℚ → ℚ → ℚ) (player : Player) : Player :=
  let vx0 := player.velocityX * PLAYER_MOMENTUM
  let vy0 := player.velocityY * PLAYER_MOMENTUM
  let maxVel := if player.isBoosting then PLAYER_MAX_BOOST_VELOCITY else PLAYER_MAX_VELOCITY
  let currentSpeed := hyp vx0 vy0
  let v1 : ℚ × ℚ :=
    if maxVel < currentSpeed then (vx0 / currentSpeed * maxVel, vy0 / currentSpeed * maxVel)
    else (vx0, vy0)
  let v2 : ℚ × ℚ :=
    if VALIDATION_MAX_SPEED < currentSpeed then
      (v1.1 * (VALIDATION_MAX_SPEED / currentSpeed), v1.2 * (VALIDATION_MAX_SPEED / currentSpeed))
    else v1
  { player with
    velocityX := v2.1
    velocityY := v2.2
    x := player.x + v2.1 * 1
    y := player.y + v2.2 * 1 }

/-- The lethal wall test of `updatePlayerPhysics`, inclusive of the player
radius on all four sides. -/
def wallContact (player : Player) : Prop :=
  player.x - PLAYER_RADIUS ≤ 0 ∨ ARENA_WIDTH ≤ player.x + PLAYER_RADIUS ∨
  player.y - PLAYER_RADIUS ≤ 0 ∨ ARENA_HEIGHT ≤ player.y + PLAYER_RADIUS

instance (player : Player) : Decidable (wallContact player) := by
  unfold wallContact; infer_instance

/-- Source `updatePlayerPhysics(player)` acting on the keyed state. -/
def updatePlayerPhysics (hyp : ℚ → ℚ → ℚ) (rand : ℕ → ℚ × ℚ) (pid : PlayerId)
    (gs : GState) : GState :=
  match findPlayer pid gs.players with
  | none => gs
  | some player =>
    let moved := integratePlayer hyp player
    let gs1 : GState := { gs with players := setPlayer pid moved gs.players }
    if wallContact moved then killPlayer rand pid none gs1 else gs1

-- ==================== SHOOTING ====================

/-- The `switch (chargeLevel)` of `handleShoot`; the argument is the value of
`shootData.chargeLevel || 0`. -/
def bulletTypeFor (chargeLevel : ℕ) : BulletType :=
  match chargeLevel with
  | 1 => BULLET_CHARGED1
  | 2 => BULLET_CHARGED2
  | _ => BULLET_NORMAL

/-- Source `handleShoot(playerId, shootData)`; `cosAngle`/`sinAngle` stand for
`Math.cos(player.angle)` and `Math.sin(player.angle)`. -/
def handleShoot (cosAngle sinAngle : ℚ) (playerId : PlayerId) (chargeLevel : ℕ)
    (gs : GState) : GState :=
  match findPlayer playerId gs.players with
  | none => gs
  | some player =>
    let bulletType := bulletTypeFor chargeLevel
    if player.energy < bulletType.energyCost then gs
    else
      let player1 := { player with energy := player.energy - bulletType.energyCost }
      let gs1 : GState := { gs with players := setPlayer playerId player1 gs.players }
      let barrelLength : ℚ := 35
      let bullet : Bullet :=
        { x := player.x + cosAngle * barrelLength
          y := player.y + sinAngle * barrelLength
          vx := cosAngle * bulletType.speed
          vy := sinAngle * bulletType.speed
          radius := bulletType.radius
          damage := bulletType.damage
          ownerId := playerId
          chargeLevel := chargeLevel
          createdAtTick := gs1.tickCount }
      { gs1 with bullets := gs1.bullets ++ [bullet] }

-- ==================== BULLET PHYSICS ====================

/-- One player test of the collision `forEach` inside `updateBullets`: skip
the owner and invulnerable targets, apply the damage on circle overlap, and
fire the death transition when the resulting energy is at or below zero. -/
def bulletHitStep (hyp : ℚ → ℚ → ℚ) (rand : ℕ → ℚ × ℚ) (b : Bullet)
    (acc : GState × Bool) (pid : PlayerId) : GState × Bool :=
  match findPlayer pid acc.1.players with
  | none => acc
  | some player =>
    if player.id = b.ownerId then acc
    else if player.invulnerable then acc
    else if getDistance hyp b.x b.y player.x player.y < b.radius + PLAYER_RADIUS then
      let player1 := { player with energy := player.energy - b.damage }
      let g1 : GState := { acc.1 with players := setPlayer pid player1 acc.1.players }
      let g2 := if player1.energy ≤ 0 then killPlayer rand pid (some b.ownerId) g1 else g1
      (g2, true)
    else acc

/-- The collision scan of one bullet over `Object.values(gameState.players)`
(the id list is captured when the scan starts). -/
def bulletHitScan (hyp : ℚ → ℚ → ℚ) (rand : ℕ → ℚ × ℚ) (b : Bullet)
    (gs : GState) : GState × Bool :=
  (gs.players.map Player.id).foldl (bulletHitStep hyp rand b) (gs, false)

/-- The body of the bullet loop of `updateBullets` for one bullet: lifetime
expiry, position integration (`deltaTime = 1`), arena-exit removal, collision
scan, and removal after a hit.  The accumulator carries the global state and
the bullets kept so far (the loop walks indices from the end, so the kept
list is built by prepending). -/
def bulletStep (hyp : ℚ → ℚ → ℚ) (rand : ℕ → ℚ × ℚ)
    (acc : GState × List Bullet) (bullet : Bullet) : GState × List Bullet :=
  let g := acc.1
  let bulletAge : ℤ := (g.tickCount : ℤ) - (bullet.createdAtTick : ℤ)
  if BULLET_MAX_LIFETIME_TICKS < bulletAge then acc
  else
    let bullet := { bullet with x := bullet.x + bullet.vx * 1, y := bullet.y + bullet.vy * 1 }
    if bullet.x < 0 ∨ ARENA_WIDTH < bullet.x ∨ bullet.y < 0 ∨ ARENA_HEIGHT < bullet.y then
      (g, acc.2)
    else
      let r := bulletHitScan hyp rand bullet g
      if r.2 then (r.1, acc.2) else (r.1, bullet :: acc.2)

/-- Source `updateBullets()`: the loop runs from the last index down to 0,
so the list is folded in reverse; the surviving bullets end up in original
order.  Nothing inside the loop writes `gameState.bullets` itself. -/
def updateBullets (hyp : ℚ → ℚ → ℚ) (rand : ℕ → ℚ × ℚ) (gs : GState) : GState :=
  let r := gs.bullets.reverse.foldl (bulletStep hyp rand) (gs, [])
  { r.1 with bullets := r.2 }

-- ==================== INVULNERABILITY & ENERGY (gameLoop bookkeeping) ====================

/-- The per-player invulnerability countdown inlined in `gameLoop`. -/
def invulnStage (player : Player) : Player :=
  if player.invulnerable ∧ 0 < player.invulnerableTicksRemaining then
    let t := player.invulnerableTicksRemaining - 1
    if t ≤ 0 then { player with invulnerableTicksRemaining := t, invulnerable := false }
    else { player with invulnerableTicksRemaining := t }
  else player

/-- The per-player energy regeneration inlined in `gameLoop`.  Note that the
source recomputes the boosting test from the stored `currentInput`, not from
the `isBoosting` flag set by the input stage. -/
def regenStage (player : Player) : Player :=
  let isBoosting : Bool :=
    (match player.currentInput with
     | some i => i.boost
     | none => false) && decide (0 < player.energy)
  if isBoosting then player
  else { player with energy := min ENERGY_MAX (player.energy + ENERGY_REGEN) }

-- ==================== MONEY PICKUPS ====================

/-- The body of the inner pickup loop of `updateMoneyPickups` for one pickup:
the distance is read once; the magnetic pull
(`cos (atan2 dy dx) = dx / dist`, pull strength `0.5`) fires strictly outside
collection range, collection fires strictly inside it. -/
def pickupStep (hyp : ℚ → ℚ → ℚ) (acc : Player × List Pickup) (money : Pickup) :
    Player × List Pickup :=
  let player := acc.1
  let dist := getDistance hyp player.x player.y money.x money.y
  let magneticRange : ℚ := 80
  let pulled : Pickup :=
    if dist < magneticRange ∧ PLAYER_RADIUS + money.radius < dist then
      { money with
        x := money.x + (player.x - money.x) / dist * (1 / 2)
        y := money.y + (player.y - money.y) / dist * (1 / 2) }
    else money
  if dist < PLAYER_RADIUS + money.radius then
    ({ player with dollarValue := player.dollarValue + money.amount }, acc.2)
  else (player, pulled :: acc.2)

/-- The inner loop of `updateMoneyPickups` for one player: indices walk from
the end of the pickup list down to 0 with positional removal. -/
def playerPickupScan (hyp : ℚ → ℚ → ℚ) (player : Player) (pickups : List Pickup) :
    Player × List Pickup :=
  pickups.reverse.foldl (pickupStep hyp) (player, [])

/-- Source `updateMoneyPickups()`: outer loop over the captured player ids,
inner loop over the live pickup list. -/
def updateMoneyPickups (hyp : ℚ → ℚ → ℚ) (gs : GState) : GState :=
  (gs.players.map Player.id).foldl
    (fun g pid =>
      match findPlayer pid g.players with
      | none => g
      | some player =>
        let r := playerPickupScan hyp player g.moneyPickups
        { g with players := setPlayer pid r.1 g.players, moneyPickups := r.2 })
    gs

-- ==================== MAIN GAME LOOP ====================

/-- Source `gameLoop()`: tick increment, input stage, physics stage,
invulnerability countdown, energy regeneration, bullets, money pickups.
`broadcastGameState` only reads the state and is not modelled. -/
def gameLoop (hyp : ℚ → ℚ → ℚ) (rand : ℕ → ℚ × ℚ) (gs : GState) : GState :=
  let g1 : GState := { gs with tickCount := gs.tickCount + 1 }
  let g2 : GState := { g1 with players := g1.players.map (inputStage hyp) }
  let g3 : GState :=
    (g2.players.map Player.id).foldl (fun g pid => updatePlayerPhysics hyp rand pid g) g2
  let g4 : GState := { g3 with players := g3.players.map invulnStage }
  let g5 : GState := { g4 with players := g4.players.map regenStage }
  let g6 := updateBullets hyp rand g5
  updateMoneyPickups hyp g6

-- ==================== INVARIANT PREDICATES (from the spec claims) ====================

/-- Energy within the authoritative range. -/
def energyOK (p : Player) : Prop := 0 ≤ p.energy ∧ p.energy ≤ ENERGY_MAX

/-- Every live player has energy within range. -/
def energyOKg (gs : GState) : Prop := ∀ q ∈ gs.players, energyOK q

/-- Every live bullet deals strictly positive damage (as every profile in
`GAME_CONFIG.BULLET.TYPES` does). -/
def damageOK (gs : GState) : Prop := ∀ b ∈ gs.bullets, 0 < b.damage

/-- Position strictly inside the arena, inclusive of the player radius. -/
def insideArena (p : Player) : Prop :=
  0 < p.x - PLAYER_RADIUS ∧ p.x + PLAYER_RADIUS < ARENA_WIDTH ∧
  0 < p.y - PLAYER_RADIUS ∧ p.y + PLAYER_RADIUS < ARENA_HEIGHT

/-- Every live player is strictly inside the arena. -/
def insideArenaG (gs : GState) : Prop := ∀ q ∈ gs.players, insideArena q

/-- The invulnerability flag agrees with the remaining-tick counter. -/
def invulnOK (p : Player) : Prop := p.invulnerable = true ↔ 0 < p.invulnerableTicksRemaining

/-- Flag/counter agreement for every live player. -/
def invulnOKg (gs : GState) : Prop := ∀ q ∈ gs.players, invulnOK q

/-- The random stream draws values in `[0, 1)`, as `Math.random` does. -/
def randOK (rand : ℕ → ℚ × ℚ) : Prop :=
  ∀ n, 0 ≤ (rand n).1 ∧ (rand n).1 < 1 ∧ 0 ≤ (rand n).2 ∧ (rand n).2 < 1

instance (p : Player) : Decidable (energyOK p) := by unfold energyOK; infer_instance

instance (gs : GState) : Decidable (energyOKg gs) := by unfold energyOKg; infer_instance

instance (gs : GState) : Decidable (damageOK gs) := by unfold damageOK; infer_instance

instance (p : Player) : Decidable (insideArena p) := by unfold insideArena; infer_instance

instance (gs : GState) : Decidable (insideArenaG gs) := by unfold insideArenaG; infer_instance

instance (p : Player) : Decidable (invulnOK p) := by unfold invulnOK; infer_instance

instance (gs : GState) : Decidable (invulnOKg gs) := by unfold invulnOKg; infer_instance

-- ==================== GENERIC HELPERS ====================

lemma foldl_inv {α : Type} {β : Type} (P : α → Prop) {f : α → β → α} {l : List β}
    (h : ∀ a b, b ∈ l → P a → P (f a b)) : ∀ {a : α}, P a → P (l.foldl f a) := by
  induction l with
  | nil => intro a ha; exact ha
  | cons x xs ih =>
    intro a ha
    exact ih (fun a b hb => h a b (List.mem_cons_of_mem _ hb)) (h a x (List.mem_cons_self _ _) ha)

lemma mem_setPlayer {pid : PlayerId} {v q : Player} {l : List Player}
    (hq : q ∈ setPlayer pid v l) : q = v ∨ (q ∈ l ∧ q.id ≠ pid) := by
  rcases List.mem_map.1 hq with ⟨r, hr, hrq⟩
  by_cases h : r.id = pid
  · left; rw [if_pos h] at hrq; exact hrq.symm
  · right; rw [if_neg h] at hrq; exact ⟨hrq ▸ hr, hrq ▸ h⟩

lemma setPlayer_map_id {pid : PlayerId} {v : Player} (hv : v.id = pid) (l : List Player) :
    (setPlayer pid v l).map Player.id = l.map Player.id := by
  induction l with
  | nil => rfl
  | cons a l ih =>
    by_cases h : a.id = pid
    · simp [setPlayer, h, hv] at ih ⊢; exact ih
    · simp [setPlayer, h] at ih ⊢; exact ih

lemma findPlayer_mem {pid : PlayerId} {p : Player} {l : List Player}
    (h : findPlayer pid l = some p) : p ∈ l := List.mem_of_find?_eq_some h

lemma findPlayer_id {pid : PlayerId} {p : Player} {l : List Player}
    (h : findPlayer pid l = some p) : p.id = pid := by
  have := List.find?_some h
  simpa using this

lemma findPlayer_eq_none {pid : PlayerId} {l : List Player}
    (h : findPlayer pid l = none) : ∀ q ∈ l, q.id ≠ pid := by
  intro q hq
  have := List.find?_eq_none.1 h q hq
  simpa using this

lemma setPlayer_cons {pid : PlayerId} {v a : Player} {l : List Player} :
    setPlayer pid v (a :: l) = (if a.id = pid then v else a) :: setPlayer pid v l := rfl

lemma findPlayer_cons_pos {pid : PlayerId} {a : Player} {l : List Player} (ha : a.id = pid) :
    findPlayer pid (a :: l) = some a :=
  List.find?_cons_of_pos _ (by simpa using ha)

lemma findPlayer_cons_neg {pid : PlayerId} {a : Player} {l : List Player} (ha : ¬ a.id = pid) :
    findPlayer pid (a :: l) = findPlayer pid l :=
  List.find?_cons_of_neg _ (by simpa using ha)

lemma findPlayer_setPlayer_self {pid : PlayerId} {v p : Player} {l : List Player}
    (h : findPlayer pid l = some p) (hv : v.id = pid) :
    findPlayer pid (setPlayer pid v l) = some v := by
  induction l with
  | nil => simp [findPlayer] at h
  | cons a l ih =>
    rw [setPlayer_cons]
    by_cases ha : a.id = pid
    · rw [if_pos ha]; exact findPlayer_cons_pos hv
    · rw [if_neg ha, findPlayer_cons_neg ha]
      rw [findPlayer_cons_neg ha] at h
      exact ih h

lemma findPlayer_setPlayer_other {pid qid : PlayerId} {v : Player} {l : List Player}
    (hv : v.id = pid) (hne : qid ≠ pid) :
    findPlayer qid (setPlayer pid v l) = findPlayer qid l := by
  induction l with
  | nil => rfl
  | cons a l ih =>
    rw [setPlayer_cons]
    by_cases ha : a.id = pid
    · have hvq : ¬ v.id = qid := by rw [hv]; exact fun hc => hne hc.symm
      have haq : ¬ a.id = qid := by rw [ha]; exact fun hc => hne hc.symm
      rw [if_pos ha, findPlayer_cons_neg hvq, findPlayer_cons_neg haq, ih]
    · by_cases haq : a.id = qid
      · rw [if_neg ha, findPlayer_cons_pos haq, findPlayer_cons_pos haq]
      · rw [if_neg ha, findPlayer_cons_neg haq, findPlayer_cons_neg haq, ih]

-- ==================== SPAWN FACTS ====================

lemma spawnPlayer_id (rx ry : ℚ) (pid : PlayerId) : (spawnPlayer rx ry pid).id = pid := rfl

lemma energyOK_spawn (rx ry : ℚ) (pid : PlayerId) : energyOK (spawnPlayer rx ry pid) := by
  constructor <;> norm_num [spawnPlayer, ENERGY_MAX]

lemma invulnOK_spawn (rx ry : ℚ) (pid : PlayerId) : invulnOK (spawnPlayer rx ry pid) := by
  constructor <;> intro h <;> norm_num [spawnPlayer, INVULNERABLE_TICKS]

lemma insideArena_spawn {rx ry : ℚ} (pid : PlayerId)
    (h1 : 0 ≤ rx) (h2 : rx < 1) (h3 : 0 ≤ ry) (h4 : ry < 1) :
    insideArena (spawnPlayer rx ry pid) := by
  unfold insideArena spawnPlayer ARENA_WIDTH ARENA_HEIGHT PLAYER_RADIUS
  dsimp only
  refine ⟨by nlinarith, by nlinarith, by nlinarith, by nlinarith⟩

-- ==================== killPlayer STRUCTURE ====================

lemma creditKill_id (killer : Player) : (creditKill killer).id = killer.id := rfl

lemma killPlayer_bullets (rand : ℕ → ℚ × ℚ) (did : PlayerId) (kid : Option PlayerId)
    (gs : GState) : (killPlayer rand did kid gs).bullets = gs.bullets := by
  unfold killPlayer
  cases hf : findPlayer did gs.players with
  | none => rfl
  | some dead =>
    cases kid with
    | none => rfl
    | some k =>
      dsimp only
      cases hk : findPlayer k gs.players <;> rfl

lemma killPlayer_tickCount (rand : ℕ → ℚ × ℚ) (did : PlayerId) (kid : Option PlayerId)
    (gs : GState) : (killPlayer rand did kid gs).tickCount = gs.tickCount := by
  unfold killPlayer
  cases hf : findPlayer did gs.players with
  | none => rfl
  | some dead =>
    cases kid with
    | none => rfl
    | some k =>
      dsimp only
      cases hk : findPlayer k gs.players <;> rfl

lemma killPlayer_map_id (rand : ℕ → ℚ × ℚ) (did : PlayerId) (kid : Option PlayerId)
    (gs : GState) : (killPlayer rand did kid gs).players.map Player.id
      = gs.players.map Player.id := by
  unfold killPlayer
  cases hf : findPlayer did gs.players with
  | none => rfl
  | some dead =>
    cases kid with
    | none => exact setPlayer_map_id (spawnPlayer_id _ _ _) _
    | some k =>
      dsimp only
      cases hk : findPlayer k gs.players with
      | none => exact setPlayer_map_id (spawnPlayer_id _ _ _) _
      | some killer =>
        dsimp only
        rw [setPlayer_map_id (spawnPlayer_id _ _ _),
          setPlayer_map_id (show (creditKill killer).id = k by
            rw [creditKill_id]; exact findPlayer_id hk)]

/-- Membership characterization for the players list after `killPlayer`. -/
lemma mem_killPlayer {rand : ℕ → ℚ × ℚ} {did : PlayerId} {kid : Option PlayerId}
    {gs : GState} {q : Player} (hq : q ∈ (killPlayer rand did kid gs).players) :
    q ∈ gs.players ∨ (∃ n, q = spawnPlayer (rand n).1 (rand n).2 did) ∨
    ∃ killer ∈ gs.players, q = creditKill killer := by
  unfold killPlayer at hq
  cases hf : findPlayer did gs.players with
  | none => rw [hf] at hq; exact Or.inl hq
  | some dead =>
    rw [hf] at hq
    cases kid with
    | none =>
      dsimp only at hq
      rcases mem_setPlayer hq with h | h
      · exact Or.inr (Or.inl ⟨_, h⟩)
      · exact Or.inl h.1
    | some k =>
      dsimp only at hq
      cases hk : findPlayer k gs.players with
      | none =>
        rw [hk] at hq
        dsimp only at hq
        rcases mem_setPlayer hq with h | h
        · exact Or.inr (Or.inl ⟨_, h⟩)
        · exact Or.inl h.1
      | some killer =>
        rw [hk] at hq
        dsimp only at hq
        rcases mem_setPlayer hq with h | h
        · exact Or.inr (Or.inl ⟨_, h⟩)
        · rcases mem_setPlayer h.1 with h2 | h2
          · exact Or.inr (Or.inr ⟨killer, findPlayer_mem hk, h2⟩)
          · exact Or.inl h2.1

/-- Sharper membership characterization when the victim is present: every
survivor with the victim id is the fresh spawn. -/
lemma mem_killPlayer_found {rand : ℕ → ℚ × ℚ} {did : PlayerId} {kid : Option PlayerId}
    {gs : GState} {dead q : Player} (hf : findPlayer did gs.players = some dead)
    (hq : q ∈ (killPlayer rand did kid gs).players) :
    q = spawnPlayer (rand gs.rngIdx).1 (rand gs.rngIdx).2 did ∨
    (q.id ≠ did ∧ (q ∈ gs.players ∨ ∃ killer ∈ gs.players, q = creditKill killer)) := by
  unfold killPlayer at hq
  rw [hf] at hq
  cases kid with
  | none =>
    dsimp only at hq
    rcases mem_setPlayer hq with h | h
    · exact Or.inl h
    · exact Or.inr ⟨h.2, Or.inl h.1⟩
  | some k =>
    dsimp only at hq
    cases hk : findPlayer k gs.players with
    | none =>
      rw [hk] at hq
      dsimp only at hq
      rcases mem_setPlayer hq with h | h
      · exact Or.inl h
      · exact Or.inr ⟨h.2, Or.inl h.1⟩
    | some killer =>
      rw [hk] at hq
      dsimp only at hq
      rcases mem_setPlayer hq with h | h
      · exact Or.inl h
      · refine Or.inr ⟨h.2, ?_⟩
        rcases mem_setPlayer h.1 with h2 | h2
        · exact Or.inr ⟨killer, findPlayer_mem hk, h2⟩
        · exact Or.inl h2.1

-- ==================== killPlayer INVARIANT PRESERVATION ====================

lemma energyOK_creditKill {killer : Player} (h : energyOK killer) :
    energyOK (creditKill killer) := h

lemma invulnOK_creditKill {killer : Player} (h : invulnOK killer) :
    invulnOK (creditKill killer) := h

lemma insideArena_creditKill {killer : Player} (h : insideArena killer) :
    insideArena (creditKill killer) := h

lemma energyOKg_killPlayer {rand : ℕ → ℚ × ℚ} {did : PlayerId} {kid : Option PlayerId}
    {gs : GState} (h : energyOKg gs) : energyOKg (killPlayer rand did kid gs) := by
  intro q hq
  rcases mem_killPlayer hq with h1 | ⟨n, h1⟩ | ⟨killer, hk, h1⟩
  · exact h q h1
  · exact h1 ▸ energyOK_spawn _ _ _
  · exact h1 ▸ energyOK_creditKill (h killer hk)

lemma invulnOKg_killPlayer {rand : ℕ → ℚ × ℚ} {did : PlayerId} {kid : Option PlayerId}
    {gs : GState} (h : invulnOKg gs) : invulnOKg (killPlayer rand did kid gs) := by
  intro q hq
  rcases mem_killPlayer hq with h1 | ⟨n, h1⟩ | ⟨killer, hk, h1⟩
  · exact h q h1
  · exact h1 ▸ invulnOK_spawn _ _ _
  · exact h1 ▸ invulnOK_creditKill (h killer hk)

lemma insideArenaG_killPlayer {rand : ℕ → ℚ × ℚ} {did : PlayerId} {kid : Option PlayerId}
    {gs : GState} (hrand : randOK rand) (h : insideArenaG gs) :
    insideArenaG (killPlayer rand did kid gs) := by
  intro q hq
  rcases mem_killPlayer hq with h1 | ⟨n, h1⟩ | ⟨killer, hk, h1⟩
  · exact h q h1
  · exact h1 ▸ insideArena_spawn _ (hrand n).1 (hrand n).2.1 (hrand n).2.2.1 (hrand n).2.2.2
  · exact h1 ▸ insideArena_creditKill (h killer hk)

-- ==================== PER-PLAYER STAGE PROJECTIONS ====================

lemma processPlayerInput_proj (hyp : ℚ → ℚ → ℚ) (p : Player) (i : Input) :
    (processPlayerInput hyp p i).x = p.x ∧ (processPlayerInput hyp p i).y = p.y ∧
    (processPlayerInput hyp p i).id = p.id ∧
    (processPlayerInput hyp p i).dollarValue = p.dollarValue ∧
    (processPlayerInput hyp p i).invulnerable = p.invulnerable ∧
    (processPlayerInput hyp p i).invulnerableTicksRemaining = p.invulnerableTicksRemaining ∧
    (processPlayerInput hyp p i).killStreak = p.killStreak ∧
    (processPlayerInput hyp p i).currentInput = p.currentInput ∧
    (processPlayerInput hyp p i).bountyMultiplier = p.bountyMultiplier := by
  unfold processPlayerInput
  rcases i.angle with _ | a <;>
    by_cases hb : (i.boost && decide (0 < p.energy)) = true <;>
      simp [hb]

lemma processPlayerInput_energy (hyp : ℚ → ℚ → ℚ) (p : Player) (i : Input) :
    (processPlayerInput hyp p i).energy =
      if i.boost = true ∧ 0 < p.energy then max 0 (p.energy - ENERGY_BOOST_DRAIN * 1)
      else p.energy := by
  have hcond : ((i.boost && decide (0 < p.energy)) = true) ↔ (i.boost = true ∧ 0 < p.energy) := by
    simp [Bool.and_eq_true, decide_eq_true_iff]
  unfold processPlayerInput
  by_cases hb : i.boost = true ∧ 0 < p.energy <;>
    rcases i.angle with _ | a <;>
      simp [hcond, hb]

lemma energyOK_processPlayerInput (hyp : ℚ → ℚ → ℚ) (p : Player) (i : Input)
    (h : energyOK p) : energyOK (processPlayerInput hyp p i) := by
  have he := processPlayerInput_energy hyp p i
  constructor
  · rw [he]; split
    · exact le_max_left _ _
    · exact h.1
  · rw [he]; split
    · refine max_le ?_ ?_
      · norm_num [ENERGY_MAX]
      · have := h.2; unfold ENERGY_BOOST_DRAIN; linarith
    · exact h.2

lemma inputStage_cases (hyp : ℚ → ℚ → ℚ) (p : Player) :
    inputStage hyp p = p ∨
    ∃ i seq, p.currentInput = some i ∧ i.sequence = some seq ∧
      p.lastProcessedSequence < seq ∧
      inputStage hyp p = { processPlayerInput hyp p i with lastProcessedSequence := seq } := by
  cases hi : p.currentInput with
  | none => exact Or.inl (by unfold inputStage; simp only [hi])
  | some i =>
    cases hs : i.sequence with
    | none => exact Or.inl (by unfold inputStage; simp only [hi, hs])
    | some seq =>
      by_cases hlt : p.lastProcessedSequence < seq
      · exact Or.inr ⟨i, seq, rfl, hs, hlt, by unfold inputStage; simp only [hi, hs, if_pos hlt]⟩
      · exact Or.inl (by unfold inputStage; simp only [hi, hs, if_neg hlt])

lemma energyOK_inputStage (hyp : ℚ → ℚ → ℚ) (p : Player) (h : energyOK p) :
    energyOK (inputStage hyp p) := by
  rcases inputStage_cases hyp p with hc | ⟨i, seq, _, _, _, hc⟩
  · rw [hc]; exact h
  · rw [hc]; exact energyOK_processPlayerInput hyp p i h

lemma invulnOK_inputStage (hyp : ℚ → ℚ → ℚ) (p : Player) (h : invulnOK p) :
    invulnOK (inputStage hyp p) := by
  rcases inputStage_cases hyp p with hc | ⟨i, seq, _, _, _, hc⟩
  · rw [hc]; exact h
  · rw [hc]
    have hp := processPlayerInput_proj hyp p i
    unfold invulnOK
    rw [show ({ processPlayerInput hyp p i with lastProcessedSequence := seq } :
      Player).invulnerable = (processPlayerInput hyp p i).invulnerable from rfl]
    rw [show ({ processPlayerInput hyp p i with lastProcessedSequence := seq } :
      Player).invulnerableTicksRemaining
      = (processPlayerInput hyp p i).invulnerableTicksRemaining from rfl]
    rw [hp.2.2.2.2.1, hp.2.2.2.2.2.1]
    exact h

lemma insideArena_inputStage (hyp : ℚ → ℚ → ℚ) (p : Player) (h : insideArena p) :
    insideArena (inputStage hyp p) := by
  rcases inputStage_cases hyp p with hc | ⟨i, seq, _, _, _, hc⟩
  · rw [hc]; exact h
  · rw [hc]
    have hp := processPlayerInput_proj hyp p i
    unfold insideArena
    rw [show ({ processPlayerInput hyp p i with lastProcessedSequence := seq } :
      Player).x = (processPlayerInput hyp p i).x from rfl]
    rw [show ({ processPlayerInput hyp p i with lastProcessedSequence := seq } :
      Player).y = (processPlayerInput hyp p i).y from rfl]
    rw [hp.1, hp.2.1]
    exact h

lemma integratePlayer_proj (hyp : ℚ → ℚ → ℚ) (p : Player) :
    (integratePlayer hyp p).id = p.id ∧
    (integratePlayer hyp p).energy = p.energy ∧
    (integratePlayer hyp p).dollarValue = p.dollarValue ∧
    (integratePlayer hyp p).invulnerable = p.invulnerable ∧
    (integratePlayer hyp p).invulnerableTicksRemaining = p.invulnerableTicksRemaining ∧
    (integratePlayer hyp p).killStreak = p.killStreak ∧
    (integratePlayer hyp p).currentInput = p.currentInput ∧
    (integratePlayer hyp p).isBoosting = p.isBoosting ∧
    (integratePlayer hyp p).bountyMultiplier = p.bountyMultiplier ∧
    (integratePlayer hyp p).lastProcessedSequence = p.lastProcessedSequence := by
  unfold integratePlayer
  dsimp only
  simp

lemma invulnStage_proj (p : Player) :
    (invulnStage p).id = p.id ∧
    (invulnStage p).x = p.x ∧ (invulnStage p).y = p.y ∧
    (invulnStage p).energy = p.energy ∧
    (invulnStage p).dollarValue = p.dollarValue ∧
    (invulnStage p).killStreak = p.killStreak ∧
    (invulnStage p).currentInput = p.currentInput := by
  unfold invulnStage
  split
  · dsimp only; split <;> simp
  · simp

lemma energyOK_invulnStage {p : Player} (h : energyOK p) : energyOK (invulnStage p) := by
  have hp := invulnStage_proj p
  unfold energyOK
  rw [hp.2.2.2.1]
  exact h

lemma insideArena_invulnStage {p : Player} (h : insideArena p) : insideArena (invulnStage p) := by
  have hp := invulnStage_proj p
  unfold insideArena
  rw [hp.2.1, hp.2.2.1]
  exact h

/-- Behaviour of the countdown on a state where the flag agrees with the
counter: the counter decrements exactly while positive, and the flag is
cleared exactly when it reaches zero. -/
lemma invulnStage_behavior (p : Player) (h : invulnOK p) :
    invulnOK (invulnStage p) ∧
    (p.invulnerable = true →
      (invulnStage p).invulnerableTicksRemaining = p.invulnerableTicksRemaining - 1 ∧
      ((invulnStage p).invulnerable = true ↔ 1 < p.invulnerableTicksRemaining)) ∧
    (p.invulnerable = false → invulnStage p = p) := by
  unfold invulnStage
  by_cases hb : p.invulnerable = true ∧ 0 < p.invulnerableTicksRemaining
  · rw [if_pos hb]
    dsimp only
    by_cases ht : p.invulnerableTicksRemaining - 1 ≤ 0
    · rw [if_pos ht]
      refine ⟨?_, ?_, ?_⟩
      · unfold invulnOK; simp; omega
      · intro _; constructor
        · rfl
        · simp; omega
      · intro hf; rw [hb.1] at hf; cases hf
    · rw [if_neg ht]
      refine ⟨?_, ?_, ?_⟩
      · unfold invulnOK; simp [hb.1]; omega
      · intro _; constructor
        · rfl
        · simp [hb.1]; omega
      · intro hf; rw [hb.1] at hf; cases hf
  · rw [if_neg hb]
    have hflag : p.invulnerable = false := by
      rcases Bool.eq_false_or_eq_true p.invulnerable with hf | ht
      · exact absurd ⟨hf, h.1 hf⟩ hb
      · exact ht
    refine ⟨h, ?_, fun _ => rfl⟩
    intro htru; rw [hflag] at htru; cases htru

lemma invulnOK_invulnStage {p : Player} (h : invulnOK p) : invulnOK (invulnStage p) :=
  (invulnStage_behavior p h).1

/-- Behaviour of the regeneration stage, exactly as coded: the boosting test
re-reads the stored `currentInput`. -/
lemma regenStage_behavior (p : Player) :
    ((∃ i, p.currentInput = some i ∧ i.boost = true) ∧ 0 < p.energy → regenStage p = p) ∧
    (¬ ((∃ i, p.currentInput = some i ∧ i.boost = true) ∧ 0 < p.energy) →
      regenStage p = { p with energy := min ENERGY_MAX (p.energy + ENERGY_REGEN) }) := by
  unfold regenStage
  constructor
  · rintro ⟨⟨i, hi, hb⟩, he⟩
    rw [hi]
    dsimp only
    rw [hb]
    simp [he]
  · intro hn
    cases hi : p.currentInput with
    | none => simp
    | some i =>
      dsimp only
      by_cases hb : i.boost = true
      · have he : ¬ 0 < p.energy := fun he => hn ⟨⟨i, hi, hb⟩, he⟩
        rw [hb]
        simp [he]
      · have hb2 : i.boost = false := by
          rcases Bool.eq_false_or_eq_true i.boost with hf | ht
          · exact absurd hf hb
          · exact ht
        rw [hb2]
        simp

lemma energyOK_regenStage {p : Player} (h : energyOK p) : energyOK (regenStage p) := by
  have hb := regenStage_behavior p
  by_cases hc : (∃ i, p.currentInput = some i ∧ i.boost = true) ∧ 0 < p.energy
  · rw [hb.1 hc]; exact h
  · rw [hb.2 hc]
    constructor
    · show 0 ≤ min ENERGY_MAX (p.energy + ENERGY_REGEN)
      have h1 := h.1
      have : (0:ℚ) ≤ ENERGY_MAX := by norm_num [ENERGY_MAX]
      have : (0:ℚ) ≤ p.energy + ENERGY_REGEN := by
        have : (0:ℚ) ≤ ENERGY_REGEN := by norm_num [ENERGY_REGEN]
        linarith
      simp only [le_min_iff]
      constructor <;> assumption
    · show min ENERGY_MAX (p.energy + ENERGY_REGEN) ≤ ENERGY_MAX
      exact min_le_left _ _

lemma regenStage_proj (p : Player) :
    (regenStage p).id = p.id ∧
    (regenStage p).x = p.x ∧ (regenStage p).y = p.y ∧
    (regenStage p).invulnerable = p.invulnerable ∧
    (regenStage p).invulnerableTicksRemaining = p.invulnerableTicksRemaining ∧
    (regenStage p).dollarValue = p.dollarValue ∧
    (regenStage p).killStreak = p.killStreak := by
  unfold regenStage
  dsimp only
  split <;> simp

lemma insideArena_regenStage {p : Player} (h : insideArena p) : insideArena (regenStage p) := by
  have hp := regenStage_proj p
  unfold insideArena
  rw [hp.2.1, hp.2.2.1]
  exact h

lemma invulnOK_regenStage {p : Player} (h : invulnOK p) : invulnOK (regenStage p) := by
  have hp := regenStage_proj p
  unfold invulnOK
  rw [hp.2.2.2.1, hp.2.2.2.2.1]
  exact h

lemma invulnOK_processPlayerInput (hyp : ℚ → ℚ → ℚ) (p : Player) (i : Input)
    (h : invulnOK p) : invulnOK (processPlayerInput hyp p i) := by
  have hp := processPlayerInput_proj hyp p i
  unfold invulnOK
  rw [hp.2.2.2.2.1, hp.2.2.2.2.2.1]
  exact h

-- ==================== PHYSICS STAGE LEMMAS ====================

lemma not_wallContact_insideArena {p : Player} (h : ¬ wallContact p) : insideArena p := by
  unfold wallContact at h
  push_neg at h
  exact ⟨by linarith [h.1], by linarith [h.2.1], by linarith [h.2.2.1], by linarith [h.2.2.2]⟩

/-- Victim-absent case: `killPlayer` is the identity. -/
lemma killPlayer_not_found {rand : ℕ → ℚ × ℚ} {did : PlayerId} {kid : Option PlayerId}
    {gs : GState} (hf : findPlayer did gs.players = none) :
    killPlayer rand did kid gs = gs := by
  unfold killPlayer
  rw [hf]

/-- Membership after an uncredited kill with the victim present. -/
lemma mem_killPlayer_none_found {rand : ℕ → ℚ × ℚ} {did : PlayerId}
    {gs : GState} {dead q : Player} (hf : findPlayer did gs.players = some dead)
    (hq : q ∈ (killPlayer rand did none gs).players) :
    q = spawnPlayer (rand gs.rngIdx).1 (rand gs.rngIdx).2 did ∨
    (q.id ≠ did ∧ q ∈ gs.players) := by
  unfold killPlayer at hq
  rw [hf] at hq
  dsimp only at hq
  rcases mem_setPlayer hq with h | h
  · exact Or.inl h
  · exact Or.inr ⟨h.2, h.1⟩

lemma updatePlayerPhysics_not_found {hyp : ℚ → ℚ → ℚ} {rand : ℕ → ℚ × ℚ}
    {pid : PlayerId} {gs : GState} (hf : findPlayer pid gs.players = none) :
    updatePlayerPhysics hyp rand pid gs = gs := by
  unfold updatePlayerPhysics
  rw [hf]

lemma updatePlayerPhysics_found {hyp : ℚ → ℚ → ℚ} {rand : ℕ → ℚ × ℚ}
    {pid : PlayerId} {gs : GState} {p : Player} (hf : findPlayer pid gs.players = some p) :
    updatePlayerPhysics hyp rand pid gs =
      (if wallContact (integratePlayer hyp p) then
        killPlayer rand pid none
          { gs with players := setPlayer pid (integratePlayer hyp p) gs.players }
      else { gs with players := setPlayer pid (integratePlayer hyp p) gs.players }) := by
  unfold updatePlayerPhysics
  rw [hf]

lemma energyOKg_updatePlayerPhysics {hyp : ℚ → ℚ → ℚ} {rand : ℕ → ℚ × ℚ}
    {pid : PlayerId} {gs : GState} (h : energyOKg gs) :
    energyOKg (updatePlayerPhysics hyp rand pid gs) := by
  cases hf : findPlayer pid gs.players with
  | none => rw [updatePlayerPhysics_not_found hf]; exact h
  | some p =>
    rw [updatePlayerPhysics_found hf]
    have hg1 : energyOKg { gs with players := setPlayer pid (integratePlayer hyp p) gs.players } := by
      intro q hq
      rcases mem_setPlayer hq with h1 | h1
      · rw [h1]
        unfold energyOK
        rw [(integratePlayer_proj hyp p).2.1]
        exact h p (findPlayer_mem hf)
      · exact h q h1.1
    split
    · exact energyOKg_killPlayer hg1
    · exact hg1

lemma invulnOKg_updatePlayerPhysics {hyp : ℚ → ℚ → ℚ} {rand : ℕ → ℚ × ℚ}
    {pid : PlayerId} {gs : GState} (h : invulnOKg gs) :
    invulnOKg (updatePlayerPhysics hyp rand pid gs) := by
  cases hf : findPlayer pid gs.players with
  | none => rw [updatePlayerPhysics_not_found hf]; exact h
  | some p =>
    rw [updatePlayerPhysics_found hf]
    have hg1 : invulnOKg { gs with players := setPlayer pid (integratePlayer hyp p) gs.players } := by
      intro q hq
      rcases mem_setPlayer hq with h1 | h1
      · rw [h1]
        unfold invulnOK
        rw [(integratePlayer_proj hyp p).2.2.2.1, (integratePlayer_proj hyp p).2.2.2.2.1]
        exact h p (findPlayer_mem hf)
      · exact h q h1.1
    split
    · exact invulnOKg_killPlayer hg1
    · exact hg1

/-- After the physics update of one player, every live record either is
strictly inside the arena or is an untouched record of another player. -/
lemma insideArena_upp_step {hyp : ℚ → ℚ → ℚ} {rand : ℕ → ℚ × ℚ} (hrand : randOK rand)
    {pid : PlayerId} {g : GState} {q : Player}
    (hq : q ∈ (updatePlayerPhysics hyp rand pid g).players) :
    insideArena q ∨ (q ∈ g.players ∧ q.id ≠ pid) := by
  cases hf : findPlayer pid g.players with
  | none =>
    rw [updatePlayerPhysics_not_found hf] at hq
    exact Or.inr ⟨hq, findPlayer_eq_none hf q hq⟩
  | some p =>
    rw [updatePlayerPhysics_found hf] at hq
    have hmovedid : (integratePlayer hyp p).id = pid := by
      rw [(integratePlayer_proj hyp p).1]; exact findPlayer_id hf
    by_cases hc : wallContact (integratePlayer hyp p)
    · rw [if_pos hc] at hq
      have hfound :
          findPlayer pid
            ({ g with players := setPlayer pid (integratePlayer hyp p) g.players } : GState).players
          = some (integratePlayer hyp p) :=
        findPlayer_setPlayer_self hf hmovedid
      rcases mem_killPlayer_none_found hfound hq with h1 | ⟨hne, h1⟩
      · rw [h1]
        exact Or.inl (insideArena_spawn _ (hrand _).1 (hrand _).2.1 (hrand _).2.2.1
          (hrand _).2.2.2)
      · rcases mem_setPlayer h1 with h2 | h2
        · exact absurd (h2 ▸ hmovedid) hne
        · exact Or.inr ⟨h2.1, hne⟩
    · rw [if_neg hc] at hq
      rcases mem_setPlayer hq with h1 | h1
      · exact Or.inl (h1 ▸ not_wallContact_insideArena hc)
      · exact Or.inr ⟨h1.1, h1.2⟩

/-- The physics stage leaves every player strictly inside the arena. -/
lemma physAll_inside {hyp : ℚ → ℚ → ℚ} {rand : ℕ → ℚ × ℚ} (hrand : randOK rand) :
    ∀ (ids : List PlayerId) (g : GState),
      (∀ q ∈ g.players, q.id ∉ ids → insideArena q) →
      ∀ q ∈ (ids.foldl (fun g pid => updatePlayerPhysics hyp rand pid g) g).players,
        insideArena q := by
  intro ids
  induction ids with
  | nil =>
    intro g hg q hq
    exact hg q hq (by simp)
  | cons pid rest ih =>
    intro g hg
    rw [List.foldl_cons]
    apply ih
    intro q hq hqrest
    rcases insideArena_upp_step hrand hq with h | ⟨hmem, hne⟩
    · exact h
    · refine hg q hmem ?_
      intro hc
      rcases List.mem_cons.1 hc with h | h
      · exact hne h
      · exact hqrest h

-- ==================== BULLET STAGE LEMMAS ====================

/-- Generic pointwise preservation through `killPlayer`. -/
lemma killPlayer_pres {P : Player → Prop} {rand : ℕ → ℚ × ℚ} {did : PlayerId}
    {kid : Option PlayerId} {gs : GState}
    (hspawn : ∀ n pid, P (spawnPlayer (rand n).1 (rand n).2 pid))
    (hcredit : ∀ k, P k → P (creditKill k))
    (h : ∀ q ∈ gs.players, P q) :
    ∀ q ∈ (killPlayer rand did kid gs).players, P q := by
  intro q hq
  rcases mem_killPlayer hq with h1 | ⟨n, h1⟩ | ⟨killer, hk, h1⟩
  · exact h q h1
  · exact h1 ▸ hspawn n _
  · exact h1 ▸ hcredit killer (h killer hk)

/-- Generic pointwise preservation through one collision test, for properties
stable under arbitrary energy rewrites. -/
lemma bulletHitStep_pres {P : Player → Prop} {hyp : ℚ → ℚ → ℚ} {rand : ℕ → ℚ × ℚ}
    {b : Bullet} {acc : GState × Bool} {pid : PlayerId}
    (hspawn : ∀ n pid2, P (spawnPlayer (rand n).1 (rand n).2 pid2))
    (hcredit : ∀ k, P k → P (creditKill k))
    (henergy : ∀ p e, P p → P { p with energy := e })
    (h : ∀ q ∈ acc.1.players, P q) :
    ∀ q ∈ (bulletHitStep hyp rand b acc pid).1.players, P q := by
  unfold bulletHitStep
  cases hf : findPlayer pid acc.1.players with
  | none => exact h
  | some player =>
    dsimp only
    by_cases h1 : player.id = b.ownerId
    · rw [if_pos h1]; exact h
    · rw [if_neg h1]
      by_cases h2 : player.invulnerable = true
      · rw [if_pos h2]; exact h
      · rw [if_neg h2]
        by_cases h3 : getDistance hyp b.x b.y player.x player.y < b.radius + PLAYER_RADIUS
        · rw [if_pos h3]
          dsimp only
          have hg1 : ∀ q ∈ (setPlayer pid { player with energy := player.energy - b.damage }
              acc.1.players), P q := by
            intro q hq
            rcases mem_setPlayer hq with hc | hc
            · exact hc ▸ henergy player _ (h player (findPlayer_mem hf))
            · exact h q hc.1
          split
          · exact killPlayer_pres hspawn hcredit hg1
          · exact hg1
        · rw [if_neg h3]; exact h

/-- Energy bounds through one collision test: the damage may drive the stored
energy negative, but then the death transition resets it before the test
returns. -/
lemma energyOKg_bulletHitStep {hyp : ℚ → ℚ → ℚ} {rand : ℕ → ℚ × ℚ}
    {b : Bullet} {acc : GState × Bool} {pid : PlayerId} (hd : 0 < b.damage)
    (h : energyOKg acc.1) : energyOKg (bulletHitStep hyp rand b acc pid).1 := by
  unfold bulletHitStep
  cases hf : findPlayer pid acc.1.players with
  | none => exact h
  | some player =>
    dsimp only
    by_cases h1 : player.id = b.ownerId
    · rw [if_pos h1]; exact h
    · rw [if_neg h1]
      by_cases h2 : player.invulnerable = true
      · rw [if_pos h2]; exact h
      · rw [if_neg h2]
        by_cases h3 : getDistance hyp b.x b.y player.x player.y < b.radius + PLAYER_RADIUS
        · rw [if_pos h3]
          dsimp only
          have hpide : ({ player with energy := player.energy - b.damage } : Player).id = pid := by
            show player.id = pid
            exact findPlayer_id hf
          have hfound : findPlayer pid (setPlayer pid
              { player with energy := player.energy - b.damage } acc.1.players)
              = some { player with energy := player.energy - b.damage } :=
            findPlayer_setPlayer_self hf hpide
          by_cases h4 : ({ player with energy := player.energy - b.damage } : Player).energy ≤ 0
          · rw [if_pos h4]
            intro q hq
            rcases mem_killPlayer_found hfound hq with hc | ⟨hne, hc | ⟨killer, hk, hc⟩⟩
            · exact hc ▸ energyOK_spawn _ _ _
            · rcases mem_setPlayer hc with hc2 | hc2
              · exact absurd (hc2 ▸ hpide) hne
              · exact h q hc2.1
            · rcases mem_setPlayer hk with hk2 | hk2
              · refine absurd ?_ hne
                rw [hc, creditKill_id, hk2, hpide]
              · exact hc ▸ energyOK_creditKill (h killer hk2.1)
          · rw [if_neg h4]
            intro q hq
            rcases mem_setPlayer hq with hc | hc
            · rw [hc]
              have hmem := h player (findPlayer_mem hf)
              constructor
              · show (0:ℚ) ≤ player.energy - b.damage
                have : ¬ player.energy - b.damage ≤ 0 := h4
                linarith
              · show player.energy - b.damage ≤ ENERGY_MAX
                have := hmem.2
                linarith
            · exact h q hc.1
        · rw [if_neg h3]; exact h

lemma energyOKg_bulletHitScan {hyp : ℚ → ℚ → ℚ} {rand : ℕ → ℚ × ℚ}
    {b : Bullet} {gs : GState} (hd : 0 < b.damage) (h : energyOKg gs) :
    energyOKg (bulletHitScan hyp rand b gs).1 := by
  unfold bulletHitScan
  have : ∀ a : GState × Bool, energyOKg a.1 →
      energyOKg ((gs.players.map Player.id).foldl (bulletHitStep hyp rand b) a).1 := by
    intro a ha
    exact foldl_inv (fun (a : GState × Bool) => energyOKg a.1)
      (fun a pid _ ha => energyOKg_bulletHitStep hd ha) ha
  exact this (gs, false) h

lemma pres_bulletHitScan {P : Player → Prop} {hyp : ℚ → ℚ → ℚ} {rand : ℕ → ℚ × ℚ}
    {b : Bullet} {gs : GState}
    (hspawn : ∀ n pid2, P (spawnPlayer (rand n).1 (rand n).2 pid2))
    (hcredit : ∀ k, P k → P (creditKill k))
    (henergy : ∀ p e, P p → P { p with energy := e })
    (h : ∀ q ∈ gs.players, P q) :
    ∀ q ∈ (bulletHitScan hyp rand b gs).1.players, P q := by
  unfold bulletHitScan
  have : ∀ a : GState × Bool, (∀ q ∈ a.1.players, P q) →
      ∀ q ∈ ((gs.players.map Player.id).foldl (bulletHitStep hyp rand b) a).1.players, P q := by
    intro a ha
    exact foldl_inv (fun (a : GState × Bool) => ∀ q ∈ a.1.players, P q)
      (fun a pid _ ha => bulletHitStep_pres hspawn hcredit henergy ha) ha
  exact this (gs, false) h

/-- Bullets never change inside a collision scan. -/
lemma bulletHitStep_bullets {hyp : ℚ → ℚ → ℚ} {rand : ℕ → ℚ × ℚ}
    {b : Bullet} {acc : GState × Bool} {pid : PlayerId} :
    (bulletHitStep hyp rand b acc pid).1.bullets = acc.1.bullets := by
  unfold bulletHitStep
  cases hf : findPlayer pid acc.1.players with
  | none => rfl
  | some player =>
    dsimp only
    by_cases h1 : player.id = b.ownerId
    · rw [if_pos h1]
    · rw [if_neg h1]
      by_cases h2 : player.invulnerable = true
      · rw [if_pos h2]
      · rw [if_neg h2]
        by_cases h3 : getDistance hyp b.x b.y player.x player.y < b.radius + PLAYER_RADIUS
        · rw [if_pos h3]
          dsimp only
          split
          · rw [killPlayer_bullets]
          · rfl
        · rw [if_neg h3]

lemma bulletHitScan_bullets {hyp : ℚ → ℚ → ℚ} {rand : ℕ → ℚ × ℚ}
    {b : Bullet} {gs : GState} :
    (bulletHitScan hyp rand b gs).1.bullets = gs.bullets := by
  unfold bulletHitScan
  have : ∀ a : GState × Bool, (a.1.bullets = gs.bullets) →
      ((gs.players.map Player.id).foldl (bulletHitStep hyp rand b) a).1.bullets = gs.bullets := by
    intro a ha
    exact foldl_inv (fun (a : GState × Bool) => a.1.bullets = gs.bullets)
      (fun a pid _ ha => bulletHitStep_bullets.trans ha) ha
  exact this (gs, false) rfl

lemma energyOKg_bulletStep {hyp : ℚ → ℚ → ℚ} {rand : ℕ → ℚ × ℚ}
    {acc : GState × List Bullet} {b : Bullet} (hd : 0 < b.damage)
    (h : energyOKg acc.1) : energyOKg (bulletStep hyp rand acc b).1 := by
  simp only [bulletStep]
  split
  · exact h
  · split
    · exact h
    · split
      · exact energyOKg_bulletHitScan hd h
      · exact energyOKg_bulletHitScan hd h

lemma pres_bulletStep {P : Player → Prop} {hyp : ℚ → ℚ → ℚ} {rand : ℕ → ℚ × ℚ}
    {acc : GState × List Bullet} {b : Bullet}
    (hspawn : ∀ n pid2, P (spawnPlayer (rand n).1 (rand n).2 pid2))
    (hcredit : ∀ k, P k → P (creditKill k))
    (henergy : ∀ p e, P p → P { p with energy := e })
    (h : ∀ q ∈ acc.1.players, P q) :
    ∀ q ∈ (bulletStep hyp rand acc b).1.players, P q := by
  simp only [bulletStep]
  split
  · exact h
  · split
    · exact h
    · split
      · exact pres_bulletHitScan hspawn hcredit henergy h
      · exact pres_bulletHitScan hspawn hcredit henergy h

/-- Every bullet kept by one loop body is a moved copy of a bullet that was
either already kept or is the bullet just processed. -/
lemma bulletStep_kept {hyp : ℚ → ℚ → ℚ} {rand : ℕ → ℚ × ℚ}
    {acc : GState × List Bullet} {b b2 : Bullet}
    (hb2 : b2 ∈ (bulletStep hyp rand acc b).2) :
    b2 ∈ acc.2 ∨ b2.damage = b.damage := by
  simp only [bulletStep] at hb2
  split at hb2
  · exact Or.inl hb2
  · split at hb2
    · exact Or.inl hb2
    · split at hb2
      · exact Or.inl hb2
      · rcases List.mem_cons.1 hb2 with hc | hc
        · exact Or.inr (by rw [hc])
        · exact Or.inl hc

lemma energyOKg_updateBullets {hyp : ℚ → ℚ → ℚ} {rand : ℕ → ℚ × ℚ} {gs : GState}
    (h : energyOKg gs) (hd : damageOK gs) : energyOKg (updateBullets hyp rand gs) := by
  unfold updateBullets
  intro q hq
  dsimp only at hq
  have : energyOKg (gs.bullets.reverse.foldl (bulletStep hyp rand) (gs, [])).1 := by
    refine foldl_inv (fun (a : GState × List Bullet) => energyOKg a.1) ?_ h
    intro a b hb ha
    exact energyOKg_bulletStep (hd b (List.mem_reverse.1 hb)) ha
  exact this q hq

lemma pres_updateBullets {P : Player → Prop} {hyp : ℚ → ℚ → ℚ} {rand : ℕ → ℚ × ℚ}
    {gs : GState}
    (hspawn : ∀ n pid2, P (spawnPlayer (rand n).1 (rand n).2 pid2))
    (hcredit : ∀ k, P k → P (creditKill k))
    (henergy : ∀ p e, P p → P { p with energy := e })
    (h : ∀ q ∈ gs.players, P q) :
    ∀ q ∈ (updateBullets hyp rand gs).players, P q := by
  unfold updateBullets
  intro q hq
  dsimp only at hq
  have : ∀ q ∈ (gs.bullets.reverse.foldl (bulletStep hyp rand) (gs, [])).1.players, P q := by
    refine foldl_inv (fun (a : GState × List Bullet) => ∀ q ∈ a.1.players, P q) ?_ h
    intro a b _ ha
    exact pres_bulletStep hspawn hcredit henergy ha
  exact this q hq

/-- Damage positivity survives the bullet stage: every surviving bullet is a
moved copy of a pre-stage bullet. -/
lemma damageOK_updateBullets {hyp : ℚ → ℚ → ℚ} {rand : ℕ → ℚ × ℚ} {gs : GState}
    (hd : damageOK gs) : damageOK (updateBullets hyp rand gs) := by
  unfold updateBullets
  intro b2 hb2
  dsimp only at hb2
  have main : ∀ (l : List Bullet) (a : GState × List Bullet),
      (∀ b ∈ l, 0 < b.damage) → (∀ b ∈ a.2, 0 < b.damage) →
      ∀ b ∈ (l.foldl (bulletStep hyp rand) a).2, 0 < b.damage := by
    intro l
    induction l with
    | nil => intro a _ ha b hb; exact ha b hb
    | cons x xs ih =>
      intro a hl ha b hb
      rw [List.foldl_cons] at hb
      refine ih _ (fun b hb => hl b (List.mem_cons_of_mem _ hb)) ?_ b hb
      intro b3 hb3
      rcases bulletStep_kept hb3 with hc | hc
      · exact ha b3 hc
      · rw [hc]; exact hl x (List.mem_cons_self _ _)
  exact main _ _ (fun b hb => hd b (List.mem_reverse.1 hb)) (by intro b hb; cases hb) b2 hb2

-- ==================== MONEY STAGE LEMMAS ====================

/-- The collection test of the inner pickup loop, over the (loop-invariant)
player coordinates. -/
def pickupInRange (hyp : ℚ → ℚ → ℚ) (px py : ℚ) (m : Pickup) : Bool :=
  decide (getDistance hyp px py m.x m.y < PLAYER_RADIUS + m.radius)

/-- The magnetic displacement of the inner pickup loop. -/
def pickupPull (hyp : ℚ → ℚ → ℚ) (px py : ℚ) (m : Pickup) : Pickup :=
  let dist := getDistance hyp px py m.x m.y
  if dist < 80 ∧ PLAYER_RADIUS + m.radius < dist then
    { m with x := m.x + (px - m.x) / dist * (1 / 2), y := m.y + (py - m.y) / dist * (1 / 2) }
  else m

lemma pickupStep_eq (hyp : ℚ → ℚ → ℚ) (pl : Player) (kept : List Pickup) (m : Pickup) :
    pickupStep hyp (pl, kept) m =
      if pickupInRange hyp pl.x pl.y m then
        ({ pl with dollarValue := pl.dollarValue + m.amount }, kept)
      else (pl, pickupPull hyp pl.x pl.y m :: kept) := by
  unfold pickupStep pickupInRange pickupPull
  by_cases hc : getDistance hyp pl.x pl.y m.x m.y < PLAYER_RADIUS + m.radius <;>
    simp [hc]

lemma foldl_pickupStep (hyp : ℚ → ℚ → ℚ) (ys : List Pickup) :
    ∀ (pl : Player) (kept : List Pickup),
      ys.foldl (pickupStep hyp) (pl, kept) =
        ({ pl with dollarValue := pl.dollarValue +
            ((ys.filter (pickupInRange hyp pl.x pl.y)).map Pickup.amount).sum },
         ((ys.filter (fun m => ! pickupInRange hyp pl.x pl.y m)).map
            (pickupPull hyp pl.x pl.y)).reverse ++ kept) := by
  induction ys with
  | nil => intro pl kept; simp
  | cons m rest ih =>
    intro pl kept
    rw [List.foldl_cons, pickupStep_eq]
    by_cases hc : pickupInRange hyp pl.x pl.y m = true
    · rw [if_pos hc, ih]
      simp [List.filter_cons, hc, add_assoc]
    · rw [if_neg hc, ih]
      have hc2 : pickupInRange hyp pl.x pl.y m = false := by
        rcases Bool.eq_false_or_eq_true (pickupInRange hyp pl.x pl.y m) with hf | ht
        · exact absurd hf hc
        · exact ht
      simp [List.filter_cons, hc2, List.append_assoc]

/-- Closed form of the inner pickup loop: the player gains exactly the sum of
the in-range amounts, the surviving pickups are the out-of-range ones with
the magnetic pull applied, in original order. -/
lemma playerPickupScan_eq (hyp : ℚ → ℚ → ℚ) (p : Player) (ms : List Pickup) :
    playerPickupScan hyp p ms =
      ({ p with dollarValue := p.dollarValue +
          ((ms.filter (pickupInRange hyp p.x p.y)).map Pickup.amount).sum },
       (ms.filter (fun m => ! pickupInRange hyp p.x p.y m)).map (pickupPull hyp p.x p.y)) := by
  unfold playerPickupScan
  rw [foldl_pickupStep]
  rw [List.filter_reverse, List.filter_reverse, List.map_reverse, List.map_reverse,
    List.sum_reverse, List.reverse_reverse, List.append_nil]

/-- Generic pointwise preservation through the money stage, for properties
stable under currency rewrites. -/
lemma pres_updateMoneyPickups {P : Player → Prop} {hyp : ℚ → ℚ → ℚ} {gs : GState}
    (hdollar : ∀ p d, P p → P { p with dollarValue := d })
    (h : ∀ q ∈ gs.players, P q) :
    ∀ q ∈ (updateMoneyPickups hyp gs).players, P q := by
  unfold updateMoneyPickups
  refine foldl_inv (fun (g : GState) => ∀ q ∈ g.players, P q) ?_ h
  intro g pid _ hg
  cases hf : findPlayer pid g.players with
  | none => simp only [hf]; exact hg
  | some player =>
    simp only [hf]
    intro q hq
    rcases mem_setPlayer hq with hc | hc
    · rw [hc, playerPickupScan_eq]
      exact hdollar player _ (hg player (findPlayer_mem hf))
    · exact hg q hc.1

lemma updateMoneyPickups_bullets {hyp : ℚ → ℚ → ℚ} {gs : GState} :
    (updateMoneyPickups hyp gs).bullets = gs.bullets := by
  unfold updateMoneyPickups
  refine foldl_inv (fun (g : GState) => g.bullets = gs.bullets) ?_ rfl
  intro g pid _ hg
  cases hf : findPlayer pid g.players with
  | none => simp only [hf]; exact hg
  | some player => simp only [hf]; exact hg

lemma updatePlayerPhysics_bullets {hyp : ℚ → ℚ → ℚ} {rand : ℕ → ℚ × ℚ}
    {pid : PlayerId} {gs : GState} :
    (updatePlayerPhysics hyp rand pid gs).bullets = gs.bullets := by
  cases hf : findPlayer pid gs.players with
  | none => rw [updatePlayerPhysics_not_found hf]
  | some p =>
    rw [updatePlayerPhysics_found hf]
    split
    · rw [killPlayer_bullets]
    · rfl

-- ==================== WHOLE-TICK COMPOSITION ====================

lemma energyOK_dollar {p : Player} (d : ℚ) (h : energyOK p) :
    energyOK { p with dollarValue := d } := h

lemma invulnOK_dollar {p : Player} (d : ℚ) (h : invulnOK p) :
    invulnOK { p with dollarValue := d } := h

lemma insideArena_dollar {p : Player} (d : ℚ) (h : insideArena p) :
    insideArena { p with dollarValue := d } := h

lemma invulnOK_energy_set {p : Player} (e : ℚ) (h : invulnOK p) :
    invulnOK { p with energy := e } := h

lemma insideArena_energy_set {p : Player} (e : ℚ) (h : insideArena p) :
    insideArena { p with energy := e } := h

lemma energyOKg_updateMoneyPickups {hyp : ℚ → ℚ → ℚ} {gs : GState}
    (h : energyOKg gs) : energyOKg (updateMoneyPickups hyp gs) :=
  pres_updateMoneyPickups (fun p d hp => energyOK_dollar d hp) h

lemma invulnOKg_updateMoneyPickups {hyp : ℚ → ℚ → ℚ} {gs : GState}
    (h : invulnOKg gs) : invulnOKg (updateMoneyPickups hyp gs) :=
  pres_updateMoneyPickups (fun p d hp => invulnOK_dollar d hp) h

lemma insideArenaG_updateMoneyPickups {hyp : ℚ → ℚ → ℚ} {gs : GState}
    (h : insideArenaG gs) : insideArenaG (updateMoneyPickups hyp gs) :=
  pres_updateMoneyPickups (fun p d hp => insideArena_dollar d hp) h

lemma invulnOKg_updateBullets {hyp : ℚ → ℚ → ℚ} {rand : ℕ → ℚ × ℚ} {gs : GState}
    (h : invulnOKg gs) : invulnOKg (updateBullets hyp rand gs) :=
  pres_updateBullets (fun n pid2 => invulnOK_spawn _ _ pid2)
    (fun k hk => invulnOK_creditKill hk) (fun p e hp => invulnOK_energy_set e hp) h

lemma insideArenaG_updateBullets {hyp : ℚ → ℚ → ℚ} {rand : ℕ → ℚ × ℚ} {gs : GState}
    (hrand : randOK rand) (h : insideArenaG gs) : insideArenaG (updateBullets hyp rand gs) :=
  pres_updateBullets
    (fun n pid2 => insideArena_spawn pid2 (hrand n).1 (hrand n).2.1 (hrand n).2.2.1
      (hrand n).2.2.2)
    (fun k hk => insideArena_creditKill hk) (fun p e hp => insideArena_energy_set e hp) h

lemma physFold_energyOKg {hyp : ℚ → ℚ → ℚ} {rand : ℕ → ℚ × ℚ}
    (ids : List PlayerId) {g : GState} (h : energyOKg g) :
    energyOKg (ids.foldl (fun g pid => updatePlayerPhysics hyp rand pid g) g) :=
  foldl_inv (fun (g : GState) => energyOKg g)
    (fun g pid _ hg => energyOKg_updatePlayerPhysics hg) h

lemma physFold_invulnOKg {hyp : ℚ → ℚ → ℚ} {rand : ℕ → ℚ × ℚ}
    (ids : List PlayerId) {g : GState} (h : invulnOKg g) :
    invulnOKg (ids.foldl (fun g pid => updatePlayerPhysics hyp rand pid g) g) :=
  foldl_inv (fun (g : GState) => invulnOKg g)
    (fun g pid _ hg => invulnOKg_updatePlayerPhysics hg) h

lemma physFold_bullets {hyp : ℚ → ℚ → ℚ} {rand : ℕ → ℚ × ℚ}
    (ids : List PlayerId) (g : GState) :
    (ids.foldl (fun g pid => updatePlayerPhysics hyp rand pid g) g).bullets = g.bullets :=
  foldl_inv (fun (g2 : GState) => g2.bullets = g.bullets)
    (fun g2 pid _ hg => updatePlayerPhysics_bullets.trans hg) rfl

lemma energyOKg_gameLoop {hyp : ℚ → ℚ → ℚ} {rand : ℕ → ℚ × ℚ} {gs : GState}
    (h : energyOKg gs) (hd : damageOK gs) : energyOKg (gameLoop hyp rand gs) := by
  simp only [gameLoop]
  refine energyOKg_updateMoneyPickups (energyOKg_updateBullets ?_ ?_)
  · intro q hq
    rcases List.mem_map.1 hq with ⟨r4, hr4, hq4⟩
    rcases List.mem_map.1 hr4 with ⟨r3, hr3, hr34⟩
    have h2 : energyOKg { gs with
        tickCount := gs.tickCount + 1
        players := gs.players.map (inputStage hyp) } := by
      intro q2 hq2
      rcases List.mem_map.1 hq2 with ⟨r, hr, hrq⟩
      exact hrq ▸ energyOK_inputStage hyp r (h r hr)
    have h3 := physFold_energyOKg _ h2 r3 hr3
    exact hq4 ▸ (hr34 ▸ energyOK_regenStage (energyOK_invulnStage h3) :
      energyOK (regenStage r4))
  · intro b hb
    rw [physFold_bullets] at hb
    exact hd b hb

lemma damageOK_gameLoop {hyp : ℚ → ℚ → ℚ} {rand : ℕ → ℚ × ℚ} {gs : GState}
    (hd : damageOK gs) : damageOK (gameLoop hyp rand gs) := by
  simp only [gameLoop]
  intro b hb
  rw [updateMoneyPickups_bullets] at hb
  refine damageOK_updateBullets ?_ b hb
  intro b2 hb2
  rw [physFold_bullets] at hb2
  exact hd b2 hb2

lemma invulnOKg_gameLoop {hyp : ℚ → ℚ → ℚ} {rand : ℕ → ℚ × ℚ} {gs : GState}
    (h : invulnOKg gs) : invulnOKg (gameLoop hyp rand gs) := by
  simp only [gameLoop]
  refine invulnOKg_updateMoneyPickups (invulnOKg_updateBullets ?_)
  intro q hq
  rcases List.mem_map.1 hq with ⟨r4, hr4, hq4⟩
  rcases List.mem_map.1 hr4 with ⟨r3, hr3, hr34⟩
  have h2 : invulnOKg { gs with
      tickCount := gs.tickCount + 1
      players := gs.players.map (inputStage hyp) } := by
    intro q2 hq2
    rcases List.mem_map.1 hq2 with ⟨r, hr, hrq⟩
    exact hrq ▸ invulnOK_inputStage hyp r (h r hr)
  have h3 := physFold_invulnOKg _ h2 r3 hr3
  exact hq4 ▸ (hr34 ▸ invulnOK_regenStage (invulnOK_invulnStage h3) :
    invulnOK (regenStage r4))

/-- Regardless of the incoming state, every player is strictly inside the
arena at the end of a tick: the physics stage either leaves a player strictly
inside or respawns it in the padded interior, and no later stage moves a
player except through the same respawn. -/
lemma insideArenaG_gameLoop {hyp : ℚ → ℚ → ℚ} {rand : ℕ → ℚ × ℚ} {gs : GState}
    (hrand : randOK rand) : insideArenaG (gameLoop hyp rand gs) := by
  simp only [gameLoop]
  refine insideArenaG_updateMoneyPickups (insideArenaG_updateBullets hrand ?_)
  intro q hq
  rcases List.mem_map.1 hq with ⟨r4, hr4, hq4⟩
  rcases List.mem_map.1 hr4 with ⟨r3, hr3, hr34⟩
  have h3 : insideArena r3 := by
    refine physAll_inside hrand _ _ ?_ r3 hr3
    intro q2 hq2 hno
    exact absurd (List.mem_map_of_mem Player.id hq2) hno
  exact hq4 ▸ (hr34 ▸ insideArena_regenStage (insideArena_invulnStage h3) :
    insideArena (regenStage r4))

-- ==================== killPlayer EXACT VALUES ====================

/-- The dropped pickup carries exactly the victim currency value. -/
lemma killPlayer_moneyPickups {rand : ℕ → ℚ × ℚ} {did : PlayerId} {kid : Option PlayerId}
    {gs : GState} {dead : Player} (hf : findPlayer did gs.players = some dead) :
    (killPlayer rand did kid gs).moneyPickups =
      gs.moneyPickups ++
        [{ x := dead.x, y := dead.y, amount := dead.dollarValue, radius := 15 }] := by
  unfold killPlayer
  rw [hf]
  cases kid with
  | none => rfl
  | some k =>
    dsimp only
    cases hk : findPlayer k gs.players <;> rfl

/-- The victim record after `killPlayer` is the fresh spawn. -/
lemma findPlayer_killPlayer_victim {rand : ℕ → ℚ × ℚ} {did : PlayerId}
    {kid : Option PlayerId} {gs : GState} {dead : Player}
    (hf : findPlayer did gs.players = some dead) :
    findPlayer did (killPlayer rand did kid gs).players =
      some (spawnPlayer (rand gs.rngIdx).1 (rand gs.rngIdx).2 did) := by
  unfold killPlayer
  rw [hf]
  cases kid with
  | none => exact findPlayer_setPlayer_self hf (spawnPlayer_id _ _ _)
  | some k =>
    dsimp only
    cases hk : findPlayer k gs.players with
    | none => exact findPlayer_setPlayer_self hf (spawnPlayer_id _ _ _)
    | some killer =>
      dsimp only
      by_cases hkd : did = k
      · subst hkd
        have hsetfull : findPlayer did (setPlayer did (creditKill killer) gs.players)
            = some (creditKill killer) :=
          findPlayer_setPlayer_self hf (by rw [creditKill_id]; exact findPlayer_id hk)
        exact findPlayer_setPlayer_self hsetfull (spawnPlayer_id _ _ _)
      · have hset : findPlayer did (setPlayer k (creditKill killer) gs.players)
            = some dead := by
          rw [findPlayer_setPlayer_other (by rw [creditKill_id]; exact findPlayer_id hk) hkd]
          exact hf
        exact findPlayer_setPlayer_self hset (spawnPlayer_id _ _ _)

/-- A live credited killer distinct from the victim gets exactly the streak
increment and the bounty switch. -/
lemma findPlayer_killPlayer_killer {rand : ℕ → ℚ × ℚ} {did kid : PlayerId}
    {gs : GState} {dead killer : Player}
    (hf : findPlayer did gs.players = some dead)
    (hk : findPlayer kid gs.players = some killer) (hne : kid ≠ did) :
    findPlayer kid (killPlayer rand did (some kid) gs).players = some (creditKill killer) := by
  unfold killPlayer
  rw [hf]
  dsimp only
  rw [show findPlayer kid
      ({ gs with moneyPickups := gs.moneyPickups ++
        [{ x := dead.x, y := dead.y, amount := dead.dollarValue, radius := 15 }] } :
        GState).players = findPlayer kid gs.players from rfl, hk]
  dsimp only
  rw [findPlayer_setPlayer_other (spawnPlayer_id _ _ _) hne]
  exact findPlayer_setPlayer_self hk (by rw [creditKill_id]; exact findPlayer_id hk)

/-- Any player distinct from the victim and from the credited killer is
untouched by `killPlayer`. -/
lemma findPlayer_killPlayer_bystander {rand : ℕ → ℚ × ℚ} {did qid : PlayerId}
    {kid : Option PlayerId} {gs : GState} {dead : Player}
    (hf : findPlayer did gs.players = some dead)
    (hq : qid ≠ did) (hq2 : ∀ k, kid = some k → qid ≠ k) :
    findPlayer qid (killPlayer rand did kid gs).players = findPlayer qid gs.players := by
  unfold killPlayer
  rw [hf]
  cases kid with
  | none => exact findPlayer_setPlayer_other (spawnPlayer_id _ _ _) hq
  | some k =>
    dsimp only
    cases hk : findPlayer k gs.players with
    | none => exact findPlayer_setPlayer_other (spawnPlayer_id _ _ _) hq
    | some killer =>
      dsimp only
      rw [findPlayer_setPlayer_other (spawnPlayer_id _ _ _) hq]
      exact findPlayer_setPlayer_other
        (by rw [creditKill_id]; exact findPlayer_id hk) (hq2 k rfl)

lemma creditKill_killStreak (killer : Player) :
    (creditKill killer).killStreak = killer.killStreak + 1 := rfl

lemma creditKill_bounty (killer : Player) :
    (creditKill killer).bountyMultiplier = bountyForStreak (killer.killStreak + 1) := rfl

lemma spawnPlayer_killStreak (rx ry : ℚ) (pid : PlayerId) :
    (spawnPlayer rx ry pid).killStreak = 0 := rfl

-- ==================== handleShoot EXACT VALUES ====================

lemma handleShoot_not_found {cosA sinA : ℚ} {playerId : PlayerId} {chargeLevel : ℕ}
    {gs : GState} (hf : findPlayer playerId gs.players = none) :
    handleShoot cosA sinA playerId chargeLevel gs = gs := by
  unfold handleShoot
  rw [hf]

/-- Insufficient energy: the shoot request is dropped with no state change. -/
lemma handleShoot_reject {cosA sinA : ℚ} {playerId : PlayerId} {chargeLevel : ℕ}
    {gs : GState} {player : Player} (hf : findPlayer playerId gs.players = some player)
    (hlow : player.energy < (bulletTypeFor chargeLevel).energyCost) :
    handleShoot cosA sinA playerId chargeLevel gs = gs := by
  unfold handleShoot
  rw [hf]
  dsimp only
  rw [if_pos hlow]

/-- Sufficient energy: exactly the cost is debited and exactly one bullet is
appended, owned by the shooter. -/
lemma handleShoot_accept {cosA sinA : ℚ} {playerId : PlayerId} {chargeLevel : ℕ}
    {gs : GState} {player : Player} (hf : findPlayer playerId gs.players = some player)
    (hok : (bulletTypeFor chargeLevel).energyCost ≤ player.energy) :
    (handleShoot cosA sinA playerId chargeLevel gs).players =
      setPlayer playerId
        { player with energy := player.energy - (bulletTypeFor chargeLevel).energyCost }
        gs.players ∧
    (∃ b : Bullet, (handleShoot cosA sinA playerId chargeLevel gs).bullets = gs.bullets ++ [b] ∧
      b.ownerId = playerId ∧ b.damage = (bulletTypeFor chargeLevel).damage ∧
      b.radius = (bulletTypeFor chargeLevel).radius ∧ b.chargeLevel = chargeLevel ∧
      b.createdAtTick = gs.tickCount) ∧
    (handleShoot cosA sinA playerId chargeLevel gs).moneyPickups = gs.moneyPickups ∧
    (handleShoot cosA sinA playerId chargeLevel gs).tickCount = gs.tickCount := by
  unfold handleShoot
  rw [hf]
  dsimp only
  rw [if_neg (not_lt.2 hok)]
  exact ⟨rfl, ⟨_, rfl, rfl, rfl, rfl, rfl, rfl⟩, rfl, rfl⟩

-- ==================== PHYSICS CLAMP ANALYSIS ====================

lemma updatePlayerPhysics_map_id {hyp : ℚ → ℚ → ℚ} {rand : ℕ → ℚ × ℚ}
    {pid : PlayerId} {gs : GState} :
    (updatePlayerPhysics hyp rand pid gs).players.map Player.id
      = gs.players.map Player.id := by
  cases hf : findPlayer pid gs.players with
  | none => rw [updatePlayerPhysics_not_found hf]
  | some p =>
    have hid : (integratePlayer hyp p).id = pid := by
      rw [(integratePlayer_proj hyp p).1]; exact findPlayer_id hf
    rw [updatePlayerPhysics_found hf]
    split
    · rw [killPlayer_map_id]
      exact setPlayer_map_id hid _
    · exact setPlayer_map_id hid _

/-- When the decayed speed exceeds the anti-speed-hack ceiling, the stage
first rescales to the boost-dependent cap and then multiplies by
`MAX_SPEED / speed` again: the final squared magnitude is
`(maxVel * MAX_SPEED / speed) ^ 2`, strictly below the ceiling squared. -/
lemma integratePlayer_speedhack (hyp : ℚ → ℚ → ℚ) (p : Player) (s : ℚ)
    (h1 : hyp (p.velocityX * PLAYER_MOMENTUM) (p.velocityY * PLAYER_MOMENTUM) = s)
    (h2 : s ^ 2 = (p.velocityX * PLAYER_MOMENTUM) ^ 2 + (p.velocityY * PLAYER_MOMENTUM) ^ 2)
    (h3 : VALIDATION_MAX_SPEED < s) :
    (integratePlayer hyp p).velocityX ^ 2 + (integratePlayer hyp p).velocityY ^ 2
      = ((if p.isBoosting = true then PLAYER_MAX_BOOST_VELOCITY else PLAYER_MAX_VELOCITY)
          * (VALIDATION_MAX_SPEED / s)) ^ 2 ∧
    (integratePlayer hyp p).velocityX ^ 2 + (integratePlayer hyp p).velocityY ^ 2
      < VALIDATION_MAX_SPEED ^ 2 := by
  have hs0 : 0 < s := by
    have : (0:ℚ) < VALIDATION_MAX_SPEED := by norm_num [VALIDATION_MAX_SPEED]
    linarith
  have hsne : s ≠ 0 := ne_of_gt hs0
  have hmax : (if p.isBoosting = true then PLAYER_MAX_BOOST_VELOCITY else PLAYER_MAX_VELOCITY)
      < s := by
    have h10 : (10:ℚ) < s := by
      have : VALIDATION_MAX_SPEED = (10:ℚ) := by norm_num [VALIDATION_MAX_SPEED]
      linarith [h3, this.symm.le]
    split <;> norm_num [PLAYER_MAX_BOOST_VELOCITY, PLAYER_MAX_VELOCITY] <;> linarith
  have hmaxpos : 0 < (if p.isBoosting = true then PLAYER_MAX_BOOST_VELOCITY
      else PLAYER_MAX_VELOCITY) := by
    split <;> norm_num [PLAYER_MAX_BOOST_VELOCITY, PLAYER_MAX_VELOCITY]
  have hmaxle : (if p.isBoosting = true then PLAYER_MAX_BOOST_VELOCITY
      else PLAYER_MAX_VELOCITY) ≤ 6 := by
    split <;> norm_num [PLAYER_MAX_BOOST_VELOCITY, PLAYER_MAX_VELOCITY]
  simp only [integratePlayer, h1, if_pos hmax, if_pos h3]
  set maxVel := (if p.isBoosting = true then PLAYER_MAX_BOOST_VELOCITY
    else PLAYER_MAX_VELOCITY) with hmv
  constructor
  · show (p.velocityX * PLAYER_MOMENTUM / s * maxVel * (VALIDATION_MAX_SPEED / s)) ^ 2 +
      (p.velocityY * PLAYER_MOMENTUM / s * maxVel * (VALIDATION_MAX_SPEED / s)) ^ 2
      = (maxVel * (VALIDATION_MAX_SPEED / s)) ^ 2
    field_simp
    linear_combination (-(maxVel ^ 2 * VALIDATION_MAX_SPEED ^ 2 * s ^ 2)) * h2
  · show (p.velocityX * PLAYER_MOMENTUM / s * maxVel * (VALIDATION_MAX_SPEED / s)) ^ 2 +
      (p.velocityY * PLAYER_MOMENTUM / s * maxVel * (VALIDATION_MAX_SPEED / s)) ^ 2
      < VALIDATION_MAX_SPEED ^ 2
    have hfirst : (p.velocityX * PLAYER_MOMENTUM / s * maxVel * (VALIDATION_MAX_SPEED / s)) ^ 2 +
        (p.velocityY * PLAYER_MOMENTUM / s * maxVel * (VALIDATION_MAX_SPEED / s)) ^ 2
        = (maxVel * (VALIDATION_MAX_SPEED / s)) ^ 2 := by
      field_simp
      linear_combination (-(maxVel ^ 2 * VALIDATION_MAX_SPEED ^ 2 * s ^ 2)) * h2
    rw [hfirst]
    have hv : maxVel * (VALIDATION_MAX_SPEED / s) < VALIDATION_MAX_SPEED := by
      have hds : 0 < VALIDATION_MAX_SPEED / s := by
        apply div_pos
        · norm_num [VALIDATION_MAX_SPEED]
        · exact hs0
      calc maxVel * (VALIDATION_MAX_SPEED / s)
          < s * (VALIDATION_MAX_SPEED / s) := by
            exact mul_lt_mul_of_pos_right hmax hds
        _ = VALIDATION_MAX_SPEED := by field_simp
    have hvpos : 0 < maxVel * (VALIDATION_MAX_SPEED / s) := by
      apply mul_pos hmaxpos
      apply div_pos
      · norm_num [VALIDATION_MAX_SPEED]
      · exact hs0
    have := mul_self_lt_mul_self (le_of_lt hvpos) hv
    calc (maxVel * (VALIDATION_MAX_SPEED / s)) ^ 2
        = (maxVel * (VALIDATION_MAX_SPEED / s)) * (maxVel * (VALIDATION_MAX_SPEED / s)) := sq _
      _ < VALIDATION_MAX_SPEED * VALIDATION_MAX_SPEED := this
      _ = VALIDATION_MAX_SPEED ^ 2 := (sq _).symm

-- ==================== WEAPON PROFILE FACTS ====================

lemma bulletTypeFor_damage_pos (ch : ℕ) : 0 < (bulletTypeFor ch).damage := by
  rcases ch with _ | _ | _ | ch
  · norm_num [bulletTypeFor, BULLET_NORMAL]
  · norm_num [bulletTypeFor, BULLET_CHARGED1]
  · norm_num [bulletTypeFor, BULLET_CHARGED2]
  · show (0:ℚ) < BULLET_NORMAL.damage
    norm_num [BULLET_NORMAL]

lemma bulletTypeFor_cost_pos (ch : ℕ) : 0 < (bulletTypeFor ch).energyCost := by
  rcases ch with _ | _ | _ | ch
  · norm_num [bulletTypeFor, BULLET_NORMAL]
  · norm_num [bulletTypeFor, BULLET_CHARGED1]
  · norm_num [bulletTypeFor, BULLET_CHARGED2]
  · show (0:ℚ) < BULLET_NORMAL.energyCost
    norm_num [BULLET_NORMAL]

lemma energyOKg_handleShoot {cosA sinA : ℚ} {pid : PlayerId} {ch : ℕ} {gs : GState}
    (h : energyOKg gs) : energyOKg (handleShoot cosA sinA pid ch gs) := by
  cases hf : findPlayer pid gs.players with
  | none => rw [handleShoot_not_found hf]; exact h
  | some player =>
    by_cases hlow : player.energy < (bulletTypeFor ch).energyCost
    · rw [handleShoot_reject hf hlow]; exact h
    · obtain ⟨hp, _, _, _⟩ := handleShoot_accept hf (not_lt.1 hlow)
      intro q hq
      rw [hp] at hq
      rcases mem_setPlayer hq with hc | hc
      · rw [hc]
        have hmem := h player (findPlayer_mem hf)
        have hcost := bulletTypeFor_cost_pos ch
        constructor
        · show (0:ℚ) ≤ player.energy - (bulletTypeFor ch).energyCost
          have := not_lt.1 hlow
          linarith
        · show player.energy - (bulletTypeFor ch).energyCost ≤ ENERGY_MAX
          have := hmem.2
          linarith
      · exact h q hc.1

lemma invulnOKg_handleShoot {cosA sinA : ℚ} {pid : PlayerId} {ch : ℕ} {gs : GState}
    (h : invulnOKg gs) : invulnOKg (handleShoot cosA sinA pid ch gs) := by
  cases hf : findPlayer pid gs.players with
  | none => rw [handleShoot_not_found hf]; exact h
  | some player =>
    by_cases hlow : player.energy < (bulletTypeFor ch).energyCost
    · rw [handleShoot_reject hf hlow]; exact h
    · obtain ⟨hp, _, _, _⟩ := handleShoot_accept hf (not_lt.1 hlow)
      intro q hq
      rw [hp] at hq
      rcases mem_setPlayer hq with hc | hc
      · exact hc ▸ invulnOK_energy_set _ (h player (findPlayer_mem hf))
      · exact h q hc.1

lemma damageOK_handleShoot {cosA sinA : ℚ} {pid : PlayerId} {ch : ℕ} {gs : GState}
    (hd : damageOK gs) : damageOK (handleShoot cosA sinA pid ch gs) := by
  cases hf : findPlayer pid gs.players with
  | none => rw [handleShoot_not_found hf]; exact hd
  | some player =>
    by_cases hlow : player.energy < (bulletTypeFor ch).energyCost
    · rw [handleShoot_reject hf hlow]; exact hd
    · obtain ⟨_, ⟨b, hb, _, hbd, _⟩, _, _⟩ := handleShoot_accept hf (not_lt.1 hlow)
      intro b2 hb2
      rw [hb] at hb2
      rcases List.mem_append.1 hb2 with hc | hc
      · exact hd b2 hc
      · rw [List.mem_singleton.1 hc, hbd]
        exact bulletTypeFor_damage_pos ch

lemma length_filter_not_aux {α : Type} (f : α → Bool) (l : List α) :
    (l.filter f).length + (l.filter (fun x => ! f x)).length = l.length := by
  induction l with
  | nil => rfl
  | cons a l ih =>
    by_cases ha : f a = true <;>
      simp [List.filter_cons, ha, ih] <;> omega

-- ==================== SPEC-SIDE STEP FUNCTION ====================

/-- The bounty step function exactly as the spec words it: streak 0 gives
1.0, streak 1 or 2 gives 1.5, streak 3 or 4 gives 2.0, streak 5 or more
gives 3.0.  Compared against `bountyForStreak` from the source. -/
def bountyStepSpec (streak : ℕ) : ℚ :=
  if streak = 0 then 1
  else if streak ≤ 2 then 3 / 2
  else if streak ≤ 4 then 2
  else 3

-- ==================== SAMPLE DATA FOR WITNESSES ====================

/-- Degenerate norm model, usable where the norm value is irrelevant (all
sampled velocities and distances below are zero on the points it is read). -/
def hyp0 : ℚ → ℚ → ℚ := fun _ _ => 0

/-- Norm model that is exact on axis-aligned vectors. -/
def hypAxis : ℚ → ℚ → ℚ := fun x y => |x| + |y|

/-- Norm model that is exact on vectors with vanishing second component. -/
def hypX : ℚ → ℚ → ℚ := fun x _ => x

/-- Random stream fixed at the arena midpoint fractions. -/
def rand0 : ℕ → ℚ × ℚ := fun _ => (1 / 2, 1 / 2)

/-- A buffered boost request whose sequence number was already processed. -/
def inputStaleBoost : Input :=
  { up := false, down := false, left := false, right := false, boost := true,
    angle := none, sequence := some 5 }

/-- A mid-arena player holding a stale boost request. -/
def pStale : Player :=
  { id := "a", x := 800, y := 600, velocityX := 0, velocityY := 0, angle := 0,
    energy := 50, dollarValue := 7, invulnerable := false,
    invulnerableTicksRemaining := 0, killStreak := 2, bountyMultiplier := 2,
    lastProcessedSequence := 5, currentInput := some inputStaleBoost, isBoosting := false }

/-- A far-away bullet owned by an absent player. -/
def bSample : Bullet :=
  { x := 100, y := 100, vx := 0, vy := 0, radius := 8, damage := 15,
    ownerId := "z", chargeLevel := 0, createdAtTick := 0 }

/-- A far-away pickup. -/
def mSample : Pickup := { x := 200, y := 200, amount := 3, radius := 15 }

/-- A state with one player, one far-away bullet and one far-away pickup. -/
def gsSample : GState :=
  { players := [pStale]
    bullets := [bSample]
    moneyPickups := [mSample]
    tickCount := 10
    rngIdx := 0 }

/-- A player whose left edge touches the left wall exactly. -/
def pEdge : Player :=
  { id := "a", x := 20, y := 600, velocityX := 0, velocityY := 0, angle := 0,
    energy := 100, dollarValue := 5, invulnerable := false,
    invulnerableTicksRemaining := 0, killStreak := 0, bountyMultiplier := 1,
    lastProcessedSequence := -1, currentInput := none, isBoosting := false }

/-- A state with the boundary-contact player. -/
def gsEdge : GState :=
  { players := [pEdge], bullets := [], moneyPickups := [], tickCount := 3, rngIdx := 0 }

/-- A second player, streak zero. -/
def pOther : Player :=
  { id := "b", x := 400, y := 300, velocityX := 0, velocityY := 0, angle := 0,
    energy := 80, dollarValue := 2, invulnerable := false,
    invulnerableTicksRemaining := 0, killStreak := 0, bountyMultiplier := 1,
    lastProcessedSequence := -1, currentInput := none, isBoosting := false }

/-- A two-player state: `a` with streak 2, `b` with streak 0. -/
def gsDuo : GState :=
  { players := [pStale, pOther], bullets := [], moneyPickups := [], tickCount := 7, rngIdx := 0 }

/-- A shooter with 10 energy (below the charge-2 cost of 15). -/
def pLowEnergy : Player :=
  { id := "a", x := 800, y := 600, velocityX := 0, velocityY := 0, angle := 0,
    energy := 10, dollarValue := 1, invulnerable := false,
    invulnerableTicksRemaining := 0, killStreak := 0, bountyMultiplier := 1,
    lastProcessedSequence := -1, currentInput := none, isBoosting := false }

/-- A state with the low-energy shooter. -/
def gsLowEnergy : GState :=
  { players := [pLowEnergy], bullets := [], moneyPickups := [], tickCount := 4, rngIdx := 0 }

/-- A fast player moving along the x axis (decayed speed 24.5 > 10). -/
def pFast : Player :=
  { id := "a", x := 800, y := 600, velocityX := 25, velocityY := 0, angle := 0,
    energy := 100, dollarValue := 1, invulnerable := false,
    invulnerableTicksRemaining := 0, killStreak := 0, bountyMultiplier := 1,
    lastProcessedSequence := -1, currentInput := none, isBoosting := false }

/-- A state with the fast player. -/
def gsFast : GState :=
  { players := [pFast], bullets := [], moneyPickups := [], tickCount := 2, rngIdx := 0 }

/-- Pickup 10 units right of the sample player: inside collection range. -/
def mNear : Pickup := { x := 810, y := 600, amount := 4, radius := 15 }

/-- Pickup 300 units below the sample player: outside every range. -/
def mFar : Pickup := { x := 800, y := 900, amount := 9, radius := 15 }

-- ==================== CLAIM THEOREMS ====================

/-- C1: for every live player the energy stays within [0, 100] after every
stage of a tick — the input stage floors the boost drain at 0, the physics
wall-death and combat death transitions reset to 100, the regeneration stage
ceils at 100, shoot debits require energy at least the cost, and projectile
damage that drives energy to or below 0 fires the death transition inside
the combat stage, so the bound holds again when the stage ends.  The bullet
hypothesis (every live bullet has positive damage) is itself maintained by
`handleShoot` and by the tick. -/
theorem C1_energy_bounds :
    (∀ (hyp : ℚ → ℚ → ℚ) (p : Player), energyOK p → energyOK (inputStage hyp p)) ∧
    (∀ (hyp : ℚ → ℚ → ℚ) (rand : ℕ → ℚ × ℚ) (pid : PlayerId) (gs : GState),
        energyOKg gs → energyOKg (updatePlayerPhysics hyp rand pid gs)) ∧
    (∀ p : Player, energyOK p → energyOK (invulnStage p)) ∧
    (∀ p : Player, energyOK p → energyOK (regenStage p)) ∧
    (∀ (hyp : ℚ → ℚ → ℚ) (rand : ℕ → ℚ × ℚ) (gs : GState),
        energyOKg gs → damageOK gs → energyOKg (updateBullets hyp rand gs)) ∧
    (∀ (hyp : ℚ → ℚ → ℚ) (gs : GState),
        energyOKg gs → energyOKg (updateMoneyPickups hyp gs)) ∧
    (∀ (cosA sinA : ℚ) (pid : PlayerId) (ch : ℕ) (gs : GState),
        energyOKg gs → energyOKg (handleShoot cosA sinA pid ch gs) ∧
          (damageOK gs → damageOK (handleShoot cosA sinA pid ch gs))) ∧
    (∀ (hyp : ℚ → ℚ → ℚ) (rand : ℕ → ℚ × ℚ) (gs : GState),
        energyOKg gs → damageOK gs →
          energyOKg (gameLoop hyp rand gs) ∧ damageOK (gameLoop hyp rand gs)) := by
  refine ⟨?_, ?_, ?_, ?_, ?_, ?_, ?_, ?_⟩
  · exact fun hyp p h => energyOK_inputStage hyp p h
  · exact fun hyp rand pid gs h => energyOKg_updatePlayerPhysics h
  · exact fun p h => energyOK_invulnStage h
  · exact fun p h => energyOK_regenStage h
  · exact fun hyp rand gs h hd => energyOKg_updateBullets h hd
  · exact fun hyp gs h => energyOKg_updateMoneyPickups h
  · exact fun cosA sinA pid ch gs h =>
      ⟨energyOKg_handleShoot h, fun hd => damageOK_handleShoot hd⟩
  · exact fun hyp rand gs h hd => ⟨energyOKg_gameLoop h hd, damageOK_gameLoop hd⟩

/-- Witness for C1 at a concrete one-player state. -/
theorem C1_energy_bounds_witness :
    energyOKg (gameLoop hyp0 rand0 gsSample) ∧ damageOK (gameLoop hyp0 rand0 gsSample) :=
  C1_energy_bounds.2.2.2.2.2.2.2 hyp0 rand0 gsSample (by decide) (by decide)

/-- C2: at the end of every tick every live player is strictly inside the
arena, inclusive of the player radius (so in particular: inside or the death
transition fired for it during the tick); the physics stage tests boundary
contact inclusively on all four sides and any contact immediately invokes
the death transition with no killer credited, while a non-contact outcome is
strict interiority. -/
theorem C2_wall_bounds :
    (∀ (hyp : ℚ → ℚ → ℚ) (rand : ℕ → ℚ × ℚ) (gs : GState), randOK rand →
        ∀ q ∈ (gameLoop hyp rand gs).players, insideArena q) ∧
    (∀ (hyp : ℚ → ℚ → ℚ) (rand : ℕ → ℚ × ℚ) (pid : PlayerId) (gs : GState) (p : Player),
        findPlayer pid gs.players = some p →
        (wallContact (integratePlayer hyp p) →
          updatePlayerPhysics hyp rand pid gs =
            killPlayer rand pid none
              { gs with players := setPlayer pid (integratePlayer hyp p) gs.players }) ∧
        (¬ wallContact (integratePlayer hyp p) →
          updatePlayerPhysics hyp rand pid gs =
            { gs with players := setPlayer pid (integratePlayer hyp p) gs.players } ∧
          insideArena (integratePlayer hyp p))) := by
  constructor
  · exact fun hyp rand gs hrand => insideArenaG_gameLoop hrand
  · intro hyp rand pid gs p hf
    constructor
    · intro hc
      rw [updatePlayerPhysics_found hf, if_pos hc]
    · intro hc
      rw [updatePlayerPhysics_found hf, if_neg hc]
      exact ⟨rfl, not_wallContact_insideArena hc⟩

/-- Witness for C2: a player with its edge exactly on the wall dies with no
killer, and after a full tick every player of the sample states is strictly
inside. -/
theorem C2_wall_bounds_witness :
    (∀ q ∈ (gameLoop hyp0 rand0 gsEdge).players, insideArena q) ∧
    updatePlayerPhysics hyp0 rand0 "a" gsEdge =
      killPlayer rand0 "a" none
        { gsEdge with players := setPlayer "a" (integratePlayer hyp0 pEdge) gsEdge.players } :=
  ⟨C2_wall_bounds.1 hyp0 rand0 gsEdge (fun n => by norm_num [rand0]),
   (C2_wall_bounds.2 hyp0 rand0 "a" gsEdge pEdge (by decide)).1 (by
     norm_num [wallContact, integratePlayer, hyp0, pEdge, PLAYER_RADIUS, PLAYER_MOMENTUM,
       PLAYER_MAX_VELOCITY, PLAYER_MAX_BOOST_VELOCITY, VALIDATION_MAX_SPEED,
       ARENA_WIDTH, ARENA_HEIGHT])⟩

/-- C3 counterexample: the in-place respawn overwrites every field of the
victim with a fresh spawn, so a player with streak 2 who dies has streak 0
afterwards — the streak is not unaffected by the player's own death. -/
theorem C3_streak_counterexample :
    (findPlayer "a" gsDuo.players).map Player.killStreak = some 2 ∧
    (findPlayer "a" (killPlayer rand0 "a" none gsDuo).players).map Player.killStreak
      = some 0 := by
  constructor
  · decide
  · decide

/-- C3 amended: the kill streak increments by exactly 1 per credited kill and
is unaffected on every uninvolved player, but it is reset to 0 when the
player themselves dies, because the death transition overwrites the whole
victim record with a fresh spawn. -/
theorem C3_streak_semantics :
    ∀ (rand : ℕ → ℚ × ℚ) (did : PlayerId) (gs : GState) (dead : Player),
      findPlayer did gs.players = some dead →
      ((∀ kid, (findPlayer did (killPlayer rand did kid gs).players).map Player.killStreak
          = some 0) ∧
       (∀ kid killer, findPlayer kid gs.players = some killer → kid ≠ did →
          (findPlayer kid (killPlayer rand did (some kid) gs).players).map Player.killStreak
            = some (killer.killStreak + 1)) ∧
       (∀ kid qid, qid ≠ did → (∀ k, kid = some k → qid ≠ k) →
          findPlayer qid (killPlayer rand did kid gs).players
            = findPlayer qid gs.players)) := by
  intro rand did gs dead hf
  refine ⟨?_, ?_, ?_⟩
  · intro kid
    rw [findPlayer_killPlayer_victim hf]
    rfl
  · intro kid killer hk hne
    rw [findPlayer_killPlayer_killer hf hk hne]
    rfl
  · intro kid qid hq hq2
    exact findPlayer_killPlayer_bystander hf hq hq2

/-- Witness for C3 amended at the two-player state. -/
theorem C3_streak_semantics_witness :
    (findPlayer "a" (killPlayer rand0 "a" (some "b") gsDuo).players).map Player.killStreak
      = some 0 ∧
    (findPlayer "b" (killPlayer rand0 "a" (some "b") gsDuo).players).map Player.killStreak
      = some 1 := by
  have h := C3_streak_semantics rand0 "a" gsDuo pStale (by decide)
  exact ⟨h.1 (some "b"), h.2.1 "b" pOther (by decide) (by decide)⟩

/-- C4: currency is conserved — the pickup dropped by the death transition
carries exactly the victim currency value read before the in-place reset,
and when the scan of one player collects the single in-range pickup the
player currency grows by exactly that amount while exactly one pickup leaves
the live collection (the others survive, magnetically nudged or not). -/
theorem C4_currency_conservation :
    (∀ (rand : ℕ → ℚ × ℚ) (did : PlayerId) (kid : Option PlayerId) (gs : GState)
        (dead : Player), findPlayer did gs.players = some dead →
        (killPlayer rand did kid gs).moneyPickups =
          gs.moneyPickups ++
            [{ x := dead.x, y := dead.y, amount := dead.dollarValue, radius := 15 }]) ∧
    (∀ (hyp : ℚ → ℚ → ℚ) (p : Player) (ms : List Pickup),
        (playerPickupScan hyp p ms).1.dollarValue = p.dollarValue +
          ((ms.filter (pickupInRange hyp p.x p.y)).map Pickup.amount).sum) ∧
    (∀ (hyp : ℚ → ℚ → ℚ) (p : Player) (ms : List Pickup) (m : Pickup),
        ms.filter (pickupInRange hyp p.x p.y) = [m] →
        (playerPickupScan hyp p ms).1 = { p with dollarValue := p.dollarValue + m.amount } ∧
        (playerPickupScan hyp p ms).2.length = ms.length - 1) := by
  refine ⟨?_, ?_, ?_⟩
  · intro rand did kid gs dead hf
    exact killPlayer_moneyPickups hf
  · intro hyp p ms
    rw [playerPickupScan_eq]
  · intro hyp p ms m hone
    have heq := playerPickupScan_eq hyp p ms
    constructor
    · rw [heq]
      rw [hone]
      simp
    · rw [heq]
      have hlen := length_filter_not_aux (pickupInRange hyp p.x p.y) ms
      rw [hone] at hlen
      simp only [List.length_map]
      simp at hlen
      omega

/-- Witness for C4: the sample player dies carrying 7 currency and drops
exactly 7; the scan at the sample coordinates collects the single near
pickup. -/
theorem C4_currency_conservation_witness :
    (killPlayer rand0 "a" none gsDuo).moneyPickups =
      gsDuo.moneyPickups ++ [{ x := 800, y := 600, amount := 7, radius := 15 }] ∧
    (playerPickupScan hypAxis pStale [mNear, mFar]).1 =
      { pStale with dollarValue := pStale.dollarValue + mNear.amount } ∧
    (playerPickupScan hypAxis pStale [mNear, mFar]).2.length = 1 := by
  have h1 := C4_currency_conservation.1 rand0 "a" none gsDuo pStale (by decide)
  have h2 := C4_currency_conservation.2.2 hypAxis pStale [mNear, mFar] mNear (by
    norm_num [List.filter, pickupInRange, getDistance, hypAxis, pStale, mNear, mFar,
      PLAYER_RADIUS])
  exact ⟨h1, h2.1, h2.2⟩

/-- C5: after every credited kill the killer bounty multiplier equals the
fixed step function of the already-incremented streak, and the coded switch
agrees with the spec step function (0 gives 1.0, 1 or 2 gives 1.5, 3 or 4
gives 2.0, 5 or more gives 3.0) at every value, boundaries included. -/
theorem C5_bounty_step :
    (∀ k : ℕ, bountyForStreak k = bountyStepSpec k) ∧
    (∀ (rand : ℕ → ℚ × ℚ) (did kid : PlayerId) (gs : GState) (dead killer : Player),
        findPlayer did gs.players = some dead →
        findPlayer kid gs.players = some killer → kid ≠ did →
        (findPlayer kid (killPlayer rand did (some kid) gs).players).map Player.killStreak
          = some (killer.killStreak + 1) ∧
        (findPlayer kid (killPlayer rand did (some kid) gs).players).map
            Player.bountyMultiplier
          = some (bountyForStreak (killer.killStreak + 1))) := by
  constructor
  · intro k
    unfold bountyForStreak bountyStepSpec
    split_ifs <;> first | rfl | omega
  · intro rand did kid gs dead killer hf hk hne
    rw [findPlayer_killPlayer_killer hf hk hne]
    exact ⟨rfl, rfl⟩

/-- Witness for C5: streak 2 killer reaches streak 3 and bounty 2.0. -/
theorem C5_bounty_step_witness :
    (findPlayer "a" (killPlayer rand0 "b" (some "a") gsDuo).players).map Player.killStreak
      = some 3 ∧
    (findPlayer "a" (killPlayer rand0 "b" (some "a") gsDuo).players).map
        Player.bountyMultiplier = some (bountyForStreak 3) := by
  have h := C5_bounty_step.2 rand0 "b" "a" gsDuo pOther pStale (by decide) (by decide)
    (by decide)
  exact ⟨h.1, h.2⟩

/-- C6: an input whose sequence number is at most the last processed one
causes no state change at all in the input stage — the whole player record
(velocity, energy, angle, boosting flag and last-processed sequence
included) is returned unchanged. -/
theorem C6_stale_input_identity :
    ∀ (hyp : ℚ → ℚ → ℚ) (p : Player) (i : Input) (seq : ℤ),
      p.currentInput = some i → i.sequence = some seq →
      seq ≤ p.lastProcessedSequence →
      inputStage hyp p = p := by
  intro hyp p i seq hi hs hle
  unfold inputStage
  simp only [hi, hs, if_neg (not_lt.2 hle)]

/-- Witness for C6: the buffered boost request with sequence 5 equal to the
last processed sequence is ignored. -/
theorem C6_stale_input_identity_witness : inputStage hyp0 pStale = pStale :=
  C6_stale_input_identity hyp0 pStale inputStaleBoost 5 (by decide) (by decide) (by decide)

/-- C7: shoot validation is atomic — with energy strictly below the profile
cost the request leaves the whole state unchanged (no projectile, no debit,
nothing emitted), and with energy at least the cost exactly the cost is
debited and exactly one projectile owned by the shooter is registered. -/
theorem C7_shoot_atomic :
    ∀ (cosA sinA : ℚ) (pid : PlayerId) (ch : ℕ) (gs : GState) (player : Player),
      findPlayer pid gs.players = some player →
      ((player.energy < (bulletTypeFor ch).energyCost →
          handleShoot cosA sinA pid ch gs = gs) ∧
       ((bulletTypeFor ch).energyCost ≤ player.energy →
          (handleShoot cosA sinA pid ch gs).players =
            setPlayer pid
              { player with energy := player.energy - (bulletTypeFor ch).energyCost }
              gs.players ∧
          ∃ b : Bullet, (handleShoot cosA sinA pid ch gs).bullets = gs.bullets ++ [b] ∧
            b.ownerId = pid ∧ b.damage = (bulletTypeFor ch).damage)) := by
  intro cosA sinA pid ch gs player hf
  constructor
  · intro hlow
    exact handleShoot_reject hf hlow
  · intro hok
    obtain ⟨hp, ⟨b, hb, hbo, hbd, _⟩, _, _⟩ := handleShoot_accept hf hok
    exact ⟨hp, b, hb, hbo, hbd⟩

/-- Witness for C7: a charge-level-2 request (cost 15) with energy 10 is
silently dropped, the state unchanged. -/
theorem C7_shoot_atomic_witness :
    handleShoot 1 0 "a" 2 gsLowEnergy = gsLowEnergy :=
  (C7_shoot_atomic 1 0 "a" 2 gsLowEnergy pLowEnergy (by decide)).1 (by decide)

/-- C8 counterexample: a player holding a stale boost request (sequence
already processed, so no fresh input is consumed and the boosting flag is
false) is denied regeneration: the regeneration stage re-reads the stored
input instead of the boosting flag, and the energy stays at 50 instead of
rising to min 100 (50 + REGEN). -/
theorem C8_regen_counterexample :
    pStale.isBoosting = false ∧
    inputStage hyp0 pStale = pStale ∧
    regenStage pStale = pStale ∧
    pStale.energy = 50 ∧
    (50 : ℚ) ≠ min ENERGY_MAX ((50 : ℚ) + ENERGY_REGEN) := by
  refine ⟨by decide, C6_stale_input_identity hyp0 pStale inputStaleBoost 5 (by decide)
    (by decide) (by decide), by decide, by decide, ?_⟩
  norm_num [ENERGY_MAX, ENERGY_REGEN]

/-- C8 amended: the regeneration stage adds REGEN (capped at 100) exactly
when the stored latest input does not request boost, or energy is zero, or
no input is stored; a stale boost request therefore keeps suppressing
regeneration even on ticks where the input stage processed nothing. -/
theorem C8_regen_behavior :
    ∀ p : Player,
      ((∃ i, p.currentInput = some i ∧ i.boost = true) ∧ 0 < p.energy →
        regenStage p = p) ∧
      (¬ ((∃ i, p.currentInput = some i ∧ i.boost = true) ∧ 0 < p.energy) →
        regenStage p = { p with energy := min ENERGY_MAX (p.energy + ENERGY_REGEN) }) :=
  fun p => regenStage_behavior p

/-- Witness for C8 amended: the stale-boost player is not regenerated, and
the same player with the input cleared is. -/
theorem C8_regen_behavior_witness :
    regenStage pStale = pStale ∧
    regenStage { pStale with currentInput := none } =
      { { pStale with currentInput := none } with
        energy := min ENERGY_MAX (({ pStale with currentInput := none } : Player).energy
          + ENERGY_REGEN) } :=
  ⟨(C8_regen_behavior pStale).1 ⟨⟨inputStaleBoost, rfl, rfl⟩, by norm_num [pStale]⟩,
   (C8_regen_behavior { pStale with currentInput := none }).2 (by
     rintro ⟨⟨i, hi, _⟩, _⟩
     cases hi)⟩

/-- C9 counterexample: with decayed speed 24.5 (above the anti-speed-hack
ceiling 10) and no boost, the stage first caps the velocity to 4 and then
scales by 10/24.5, leaving magnitude 80/49 — not the ceiling magnitude 10
the claim asserts. -/
theorem C9_speedhack_counterexample :
    VALIDATION_MAX_SPEED <
      hypX (pFast.velocityX * PLAYER_MOMENTUM) (pFast.velocityY * PLAYER_MOMENTUM) ∧
    (hypX (pFast.velocityX * PLAYER_MOMENTUM) (pFast.velocityY * PLAYER_MOMENTUM)) ^ 2
      = (pFast.velocityX * PLAYER_MOMENTUM) ^ 2 + (pFast.velocityY * PLAYER_MOMENTUM) ^ 2 ∧
    (integratePlayer hypX pFast).velocityX = 80 / 49 ∧
    (integratePlayer hypX pFast).velocityY = 0 ∧
    (integratePlayer hypX pFast).velocityX ^ 2 + (integratePlayer hypX pFast).velocityY ^ 2
      ≠ VALIDATION_MAX_SPEED ^ 2 := by
  refine ⟨?_, ?_, ?_, ?_, ?_⟩ <;>
    norm_num [integratePlayer, hypX, pFast, PLAYER_MOMENTUM, PLAYER_MAX_VELOCITY,
      PLAYER_MAX_BOOST_VELOCITY, VALIDATION_MAX_SPEED]

/-- C9 amended: whenever the decayed speed exceeds the anti-speed-hack
ceiling MAX_SPEED = 10, the stage rescales the already-capped velocity by
MAX_SPEED/speed, producing squared magnitude (maxVel * MAX_SPEED / speed)^2,
which is strictly below the ceiling squared (not equal to it); the check
reads the same pre-cap speed as the boost cap, the tick is never dropped and
the player never leaves the live set. -/
theorem C9_speedhack_clamp :
    (∀ (hyp : ℚ → ℚ → ℚ) (p : Player) (s : ℚ),
        hyp (p.velocityX * PLAYER_MOMENTUM) (p.velocityY * PLAYER_MOMENTUM) = s →
        s ^ 2 = (p.velocityX * PLAYER_MOMENTUM) ^ 2 + (p.velocityY * PLAYER_MOMENTUM) ^ 2 →
        VALIDATION_MAX_SPEED < s →
        (integratePlayer hyp p).velocityX ^ 2 + (integratePlayer hyp p).velocityY ^ 2
          = ((if p.isBoosting = true then PLAYER_MAX_BOOST_VELOCITY else PLAYER_MAX_VELOCITY)
              * (VALIDATION_MAX_SPEED / s)) ^ 2 ∧
        (integratePlayer hyp p).velocityX ^ 2 + (integratePlayer hyp p).velocityY ^ 2
          < VALIDATION_MAX_SPEED ^ 2) ∧
    (∀ (hyp : ℚ → ℚ → ℚ) (rand : ℕ → ℚ × ℚ) (pid : PlayerId) (gs : GState),
        (updatePlayerPhysics hyp rand pid gs).players.map Player.id
          = gs.players.map Player.id) := by
  constructor
  · intro hyp p s h1 h2 h3
    exact integratePlayer_speedhack hyp p s h1 h2 h3
  · intro hyp rand pid gs
    exact updatePlayerPhysics_map_id

/-- Witness for C9 amended at the fast sample player (speed 24.5). -/
theorem C9_speedhack_clamp_witness :
    (integratePlayer hypX pFast).velocityX ^ 2 + (integratePlayer hypX pFast).velocityY ^ 2
      = ((if pFast.isBoosting = true then PLAYER_MAX_BOOST_VELOCITY else PLAYER_MAX_VELOCITY)
          * (VALIDATION_MAX_SPEED / (49 / 2))) ^ 2 ∧
    (integratePlayer hypX pFast).velocityX ^ 2 + (integratePlayer hypX pFast).velocityY ^ 2
      < VALIDATION_MAX_SPEED ^ 2 ∧
    (updatePlayerPhysics hypX rand0 "a" gsFast).players.map Player.id
      = gsFast.players.map Player.id := by
  have h := C9_speedhack_clamp.1 hypX pFast (49 / 2)
    (by norm_num [hypX, pFast, PLAYER_MOMENTUM])
    (by norm_num [hypX, pFast, PLAYER_MOMENTUM])
    (by norm_num [VALIDATION_MAX_SPEED])
  exact ⟨h.1, h.2, C9_speedhack_clamp.2 hypX rand0 "a" gsFast⟩

/-- C10: for every live player the invulnerability flag is true exactly when
the remaining-tick counter is positive — spawn establishes the flag with the
positive counter 120, the countdown decrements while the flag holds and
clears it exactly when the counter reaches zero, the shoot handler preserves
the agreement, and so does the whole tick (whose stages otherwise never
touch the two fields except through the respawn transition). -/
theorem C10_invuln_flag_iff_counter :
    (∀ (rx ry : ℚ) (pid : PlayerId), invulnOK (spawnPlayer rx ry pid)) ∧
    (∀ p : Player, invulnOK p →
       invulnOK (invulnStage p) ∧
       (p.invulnerable = true →
          (invulnStage p).invulnerableTicksRemaining = p.invulnerableTicksRemaining - 1 ∧
          ((invulnStage p).invulnerable = true ↔ 1 < p.invulnerableTicksRemaining)) ∧
       (p.invulnerable = false → invulnStage p = p)) ∧
    (∀ (cosA sinA : ℚ) (pid : PlayerId) (ch : ℕ) (gs : GState),
        invulnOKg gs → invulnOKg (handleShoot cosA sinA pid ch gs)) ∧
    (∀ (hyp : ℚ → ℚ → ℚ) (rand : ℕ → ℚ × ℚ) (gs : GState),
        invulnOKg gs → invulnOKg (gameLoop hyp rand gs)) := by
  refine ⟨?_, ?_, ?_, ?_⟩
  · exact fun rx ry pid => invulnOK_spawn rx ry pid
  · exact fun p h => invulnStage_behavior p h
  · exact fun cosA sinA pid ch gs h => invulnOKg_handleShoot h
  · exact fun hyp rand gs h => invulnOKg_gameLoop h

/-- Witness for C10 at the sample state. -/
theorem C10_invuln_flag_iff_counter_witness :
    invulnOK (spawnPlayer (1 / 2) (1 / 2) "a") ∧
    invulnOKg (gameLoop hyp0 rand0 gsSample) :=
  ⟨C10_invuln_flag_iff_counter.1 (1 / 2) (1 / 2) "a",
   C10_invuln_flag_iff_counter.2.2.2 hyp0 rand0 gsSample (by decide)⟩

end Strafe
